import Mathlib

/-!
Verification of the caser calendar-event engine: recurrence-rule model,
rule instantiation, occurrence iteration, RRULE printing/parsing, and the
event/span data model, shallowly embedded from the Rust source
(src/common/src/recurrence/mod.rs, src/common/src/event.rs,
src/common/src/span.rs, src/server/src/recurrence/mod.rs).
-/

namespace Caser

/-- Characters of a Rust `String`/`str` (all data here is ASCII). -/
abbrev Str := List Char

/-! ## Calendar core (model of `chrono::NaiveDate`)

`chrono::NaiveDate` is a proleptic-Gregorian calendar date. We model it as
an explicit (year, month, day) record; month and day are 1-based as in the
`Datelike` accessors `year()`, `month()`, `day()`. -/

/-- Proleptic Gregorian leap-year test (as used by `chrono`). -/
def isLeapYear (y : Int) : Bool :=
  y % 4 == 0 && (y % 100 != 0 || y % 400 == 0)

/-- Number of days of month `m` (1-based) of year `y` in the
proleptic Gregorian calendar. -/
def daysInMonth (y : Int) (m : Nat) : Nat :=
  match m with
  | 1 => 31 | 2 => if isLeapYear y then 29 else 28
  | 3 => 31 | 4 => 30 | 5 => 31 | 6 => 30
  | 7 => 31 | 8 => 31 | 9 => 30 | 10 => 31
  | 11 => 30 | 12 => 31
  | _ => 31

/-- Model of `chrono::NaiveDate`: year, 1-based month, 1-based day. -/
structure Date where
  year : Int
  month : Nat
  day : Nat
  deriving DecidableEq, Repr

/-- A structurally sane date: the bounds every `chrono::NaiveDate` satisfies. -/
def Date.Sane (d : Date) : Prop :=
  1 ≤ d.month ∧ d.month ≤ 12 ∧ 1 ≤ d.day ∧ d.day ≤ 31

instance (d : Date) : Decidable d.Sane := by unfold Date.Sane; infer_instance

/-- `chrono`'s `NaiveDate::succ`: the next calendar day. -/
def nextDay (d : Date) : Date :=
  if d.day < daysInMonth d.year d.month then ⟨d.year, d.month, d.day + 1⟩
  else if d.month < 12 then ⟨d.year, d.month + 1, 1⟩
  else ⟨d.year + 1, 1, 1⟩

/-- `chrono`'s `NaiveDate::pred`: the previous calendar day. -/
def prevDay (d : Date) : Date :=
  if 1 < d.day then ⟨d.year, d.month, d.day - 1⟩
  else if 1 < d.month then ⟨d.year, d.month - 1, daysInMonth d.year (d.month - 1)⟩
  else ⟨d.year - 1, 12, 31⟩

/-- Add `n` days by iterating `nextDay`. -/
def addDaysNat (d : Date) : Nat → Date
  | 0 => d
  | n + 1 => addDaysNat (nextDay d) n

/-- `NaiveDate + chrono::Duration::days n` (also negative `n`). -/
def addDays (d : Date) (n : Int) : Date :=
  if 0 ≤ n then addDaysNat d n.toNat
  else Nat.rec d (fun _ acc => prevDay acc) (-n).toNat

/-- Strict date order (lexicographic on year, month, day), the order of
`chrono::NaiveDate`. -/
def dateLt (a b : Date) : Prop :=
  a.year < b.year ∨ (a.year = b.year ∧
    (a.month < b.month ∨ (a.month = b.month ∧ a.day < b.day)))

instance (a b : Date) : Decidable (dateLt a b) := by unfold dateLt; infer_instance

/-- Non-strict date order. -/
def dateLe (a b : Date) : Prop := dateLt a b ∨ a = b

instance (a b : Date) : Decidable (dateLe a b) := by unfold dateLe; infer_instance

/-- Days since 1970-01-01 of a Gregorian date (the serial-day count behind
`chrono`'s date arithmetic), by the standard civil-from-days formula. -/
def toRD (d : Date) : Int :=
  let y : Int := if d.month ≤ 2 then d.year - 1 else d.year
  let era : Int := y.fdiv 400
  let yoe : Int := y - era * 400
  let mp : Int := ((d.month : Int) + 9) % 12
  let doy : Int := (153 * mp + 2).tdiv 5 + (d.day : Int) - 1
  let doe : Int := yoe * 365 + yoe.tdiv 4 - yoe.tdiv 100 + doy
  era * 146097 + doe - 719468

/-- Model of `chrono::Weekday` (ISO, Monday first). -/
inductive Weekday where
  | mon | tue | wed | thu | fri | sat | sun
  deriving DecidableEq, Repr

/-- `NaiveDate::weekday()`: 1970-01-01 was a Thursday. -/
def Date.weekday (d : Date) : Weekday :=
  match ((toRD d + 3) % 7).toNat with
  | 0 => .mon | 1 => .tue | 2 => .wed | 3 => .thu
  | 4 => .fri | 5 => .sat | _ => .sun

/-- Model of `chrono::Month` (as used in `by_month`). -/
inductive Month where
  | january | february | march | april | may | june
  | july | august | september | october | november | december
  deriving DecidableEq, Repr

/-- `chrono::Month::number_from_month`: 1-based month number. -/
def Month.numberFromMonth : Month → Nat
  | .january => 1 | .february => 2 | .march => 3 | .april => 4
  | .may => 5 | .june => 6 | .july => 7 | .august => 8
  | .september => 9 | .october => 10 | .november => 11 | .december => 12

/-- Modelled from the spec: the server crate's `NaiveDateHelpers::year_day`
helper (src/server/src/recurrence/helpers.rs is not in the sources given);
the spec calls it `day_of_year(start_date)`, the 1-based ordinal of the
date within its year. -/
def yearDay (d : Date) : Nat :=
  (List.range (d.month - 1)).foldl (fun acc k => acc + daysInMonth d.year (k + 1)) 0 + d.day

/-! ## Rule model (src/common/src/recurrence/mod.rs) -/

/-- `RecurrenceFreq` from src/common/src/recurrence/mod.rs. -/
inductive RecurrenceFreq where
  | daily | weekly | monthly | yearly
  deriving DecidableEq, Repr

/-- `RecurrenceLimit` from src/common/src/recurrence/mod.rs. -/
inductive RecurrenceLimit where
  | indefinite
  | date (d : Date)
  | count (n : Nat)
  deriving DecidableEq, Repr

/-- `RecurrenceRule` from src/common/src/recurrence/mod.rs. `interval` is an
`i32` in the source; the integer BY-lists hold `i32` values. -/
structure RecurrenceRule where
  frequency : RecurrenceFreq
  interval : Int
  limit : RecurrenceLimit
  by_month : Option (List Month)
  by_week_no : Option (List Int)
  by_year_day : Option (List Int)
  by_month_day : Option (List Int)
  by_day : Option (List Weekday)
  by_set_pos : Option (List Int)
  deriving DecidableEq, Repr

/-! ## Rule instantiation (src/server/src/recurrence/mod.rs) -/

/-- `RecurrenceRuleInstance` from src/server/src/recurrence/mod.rs. -/
structure RecurrenceRuleInstance where
  rule : RecurrenceRule
  start_date : Date
  deriving DecidableEq, Repr

/-- `RecurrenceRuleInstance::infer_stuff`: infer missing BY fields from the
start date. The returned record sets `by_day`, `by_month_day` and
`by_year_day` to the freshly computed locals (`None` unless inference
fired) and takes every other field from `rule`, exactly as the
`RecurrenceRule { by_day: new_by_day, .., ..rule }` expression does. -/
def infer_stuff (rule : RecurrenceRule) (start_date : Date) : RecurrenceRule := Id.run do
  let mut new_by_day : Option (List Weekday) := none
  let mut new_by_month_day : Option (List Int) := none
  let mut new_by_year_day : Option (List Int) := none
  if rule.frequency = .weekly ∧ rule.by_day = none then
    new_by_day := some [start_date.weekday]
  if rule.frequency = .monthly ∧ rule.by_month_day = none ∧ rule.by_day = none then
    new_by_month_day := some [(start_date.day : Int)]
  if rule.frequency = .yearly then
    if rule.by_month.isSome then
      if rule.by_month_day = none then
        new_by_month_day := some [(start_date.day : Int)]
    else if rule.by_week_no.isSome then
      if rule.by_day = none then
        new_by_day := some [start_date.weekday]
    else if rule.by_year_day = none then
      new_by_year_day := some [(yearDay start_date : Int)]
  return { rule with
    by_day := new_by_day
    by_month_day := new_by_month_day
    by_year_day := new_by_year_day }

/-- `RecurrenceRuleInstance::new`. -/
def RecurrenceRuleInstance.new (rule : RecurrenceRule) (start_date : Date) :
    RecurrenceRuleInstance :=
  { rule := infer_stuff rule start_date, start_date }

/-- The distinct `panic!`/`unimplemented!` sites reachable from the filter
checks of `RecurrenceRuleInstance` (a Rust panic aborts the iteration). -/
inductive PanicKind where
  | byWeekNoNotYearly
  | byWeekNoUnimplemented
  | byYearDayBadFreq
  | byMonthDayWeekly
  | bySetPosUnimplemented
  deriving DecidableEq, Repr

/-- `RecurrenceRuleInstance::check_by_month` (note: the source returns
`find(..).is_none()`, not `is_some()`). -/
def check_by_month (rule : RecurrenceRule) (date : Date) : Bool :=
  match rule.by_month with
  | some by_month => (by_month.find? (fun x => x.numberFromMonth == date.month)).isNone
  | none => true

/-- `RecurrenceRuleInstance::check_by_week_no`: panics when the frequency is
not `YEARLY`, and is `unimplemented!()` otherwise. -/
def check_by_week_no (rule : RecurrenceRule) (_date : Date) : Except PanicKind Bool :=
  match rule.by_week_no with
  | some _ =>
    if rule.frequency ≠ .yearly then .error .byWeekNoNotYearly
    else .error .byWeekNoUnimplemented
  | none => .ok true

/-- `RecurrenceRuleInstance::check_by_year_day`: panics for `DAILY`, `WEEKLY`
and `MONTHLY` frequencies. -/
def check_by_year_day (rule : RecurrenceRule) (date : Date) : Except PanicKind Bool :=
  match rule.by_year_day with
  | some by_year_day =>
    if rule.frequency = .daily ∨ rule.frequency = .weekly ∨ rule.frequency = .monthly then
      .error .byYearDayBadFreq
    else
      .ok (by_year_day.find? (fun x => x == (yearDay date : Int))).isSome
  | none => .ok true

/-- `RecurrenceRuleInstance::check_by_month_day`: panics for `WEEKLY`. -/
def check_by_month_day (rule : RecurrenceRule) (date : Date) : Except PanicKind Bool :=
  match rule.by_month_day with
  | some by_month_day =>
    if rule.frequency = .weekly then .error .byMonthDayWeekly
    else .ok (by_month_day.find? (fun x => x == (date.day : Int))).isSome
  | none => .ok true

/-- `RecurrenceRuleInstance::check_by_day`. -/
def check_by_day (rule : RecurrenceRule) (date : Date) : Bool :=
  match rule.by_day with
  | some by_day => (by_day.find? (fun x => x == date.weekday)).isSome
  | none => true

/-- `RecurrenceRuleInstance::check_by_set_pos`: `unimplemented!()` whenever
the filter is present. -/
def check_by_set_pos (rule : RecurrenceRule) (_date : Date) : Except PanicKind Bool :=
  match rule.by_set_pos with
  | some _ => .error .bySetPosUnimplemented
  | none => .ok true

/-- The `fits_into_rule` conjunction inside `RRuleInstances::next`, with the
source's `&&` short-circuiting (a later check never runs — and so never
panics — once an earlier one is false). -/
def fits_into_rule (rule : RecurrenceRule) (date : Date) : Except PanicKind Bool :=
  if check_by_month rule date then do
    let b2 ← check_by_week_no rule date
    if b2 then do
      let b3 ← check_by_year_day rule date
      if b3 then do
        let b4 ← check_by_month_day rule date
        if b4 then
          if check_by_day rule date then check_by_set_pos rule date
          else pure false
        else pure false
      else pure false
    else pure false
  else pure false

/-! ## Occurrence iterator (src/server/src/recurrence/mod.rs) -/

/-- `calc_uniq_weeks_between`: number of distinct ISO weeks between `a` and
`b`. The Rust helper walks `a.iter_days()` until the first Monday; the walk
always ends within 7 days because weekdays cycle with period 7, so scanning
the first 7 days is the same computation. `num_weeks` on a `chrono`
duration is `i64` division by 7, which truncates toward zero. -/
def calc_uniq_weeks_between (a b : Date) : Int :=
  let days_until_monday :=
    ((List.range 7).takeWhile (fun k => (addDays a (k : Int)).weekday ≠ .mon)).length
  let monday_date := addDays a (days_until_monday : Int)
  (toRD monday_date - toRD b).tdiv 7

/-- The `freq_diff` computation of `RRuleInstances::next` (the `u32`
month arithmetic never underflows because of the `>` guard). -/
def freq_diff (rule : RecurrenceRule) (current_date last_instance_date : Date) : Int :=
  match rule.frequency with
  | .daily => toRD current_date - toRD last_instance_date
  | .weekly => calc_uniq_weeks_between current_date last_instance_date
  | .monthly =>
    if last_instance_date.month > current_date.month then
      ((current_date.month + 12 - last_instance_date.month : Nat) : Int)
    else
      ((current_date.month - last_instance_date.month : Nat) : Int)
  | .yearly => current_date.year - last_instance_date.year

/-- `RRuleInstances`: the iterator state. `rule` and `start_date` are the
borrowed `RecurrenceRuleInstance`; `instance_count` is a `u32` counter. -/
structure RRuleInstances where
  rule : RecurrenceRule
  start_date : Date
  instance_count : Nat
  last_instance_date : Date
  current_date : Date
  deriving DecidableEq, Repr

/-- `RRuleInstances::new`. -/
def RRuleInstances.new (ri : RecurrenceRuleInstance) : RRuleInstances :=
  { rule := ri.rule
    start_date := ri.start_date
    instance_count := 0
    last_instance_date := ri.start_date
    current_date := ri.start_date }

/-- Outcome of one call to `RRuleInstances::next`: `emitted d s` is
`Some(d)` leaving the iterator in state `s`; `finished s` is `None` (the
`break` on a reached limit); `panicked p` is a Rust panic raised by a
filter check. -/
inductive StepRes where
  | emitted (d : Date) (s : RRuleInstances)
  | finished (s : RRuleInstances)
  | panicked (p : PanicKind)
  deriving DecidableEq, Repr

/-- The `break` conditions of the `match` on the limit inside
`RRuleInstances::next`. -/
def limitReached (s : RRuleInstances) : Bool :=
  match s.rule.limit with
  | .indefinite => false
  | .date date => decide (dateLt date s.current_date)
  | .count count => decide (s.instance_count ≥ count)

/-- `self.current_date += Duration::days(self.rule_instance.rule.interval)`:
note the source advances by `interval` days, not by one day. -/
def advanceState (s : RRuleInstances) : RRuleInstances :=
  { s with current_date := addDays s.current_date s.rule.interval }

/-- The state updates of the `is_match` branch of `RRuleInstances::next`
(count bumped, `last_instance_date` set, `current_date` advanced). -/
def emitState (s : RRuleInstances) : RRuleInstances :=
  { s with
    instance_count := s.instance_count + 1
    last_instance_date := s.current_date
    current_date := addDays s.current_date s.rule.interval }

/-- `RRuleInstances::next`, with the source's unbounded `loop` made
explicit by a fuel parameter: `none` means the loop is still running after
`fuel` iterations. -/
def next_fuel : Nat → RRuleInstances → Option StepRes
  | 0, _ => none
  | fuel + 1, s =>
    match fits_into_rule s.rule s.current_date with
    | .error p => some (.panicked p)
    | .ok fits =>
      if limitReached s then some (.finished s)
      else if fits ∧ (freq_diff s.rule s.current_date s.last_instance_date ≥ s.rule.interval ∨
                      freq_diff s.rule s.current_date s.last_instance_date = 0) then
        some (.emitted s.current_date (emitState s))
      else
        next_fuel fuel (advanceState s)

/-! ## RRULE printer (`impl Display for RecurrenceRule`,
src/common/src/recurrence/mod.rs) -/

/-- `Display for RecurrenceFreq`. -/
def freqStr : RecurrenceFreq → Str
  | .daily => ("DAILY".data)
  | .weekly => ("WEEKLY".data)
  | .monthly => ("MONTHLY".data)
  | .yearly => ("YEARLY".data)

/-- The two-letter weekday codes emitted for `BYDAY`. -/
def weekdayCode : Weekday → Str
  | .mon => ("MO".data) | .tue => ("TU".data) | .wed => ("WE".data)
  | .thu => ("TH".data) | .fri => ("FR".data) | .sat => ("SA".data)
  | .sun => ("SU".data)

/-- The character of a decimal digit. -/
def digitChar (d : Nat) : Char :=
  match d with
  | 0 => '0' | 1 => '1' | 2 => '2' | 3 => '3' | 4 => '4'
  | 5 => '5' | 6 => '6' | 7 => '7' | 8 => '8' | 9 => '9'
  | _ => '*'

/-- Decimal rendering of a natural number (Rust's `Display` for unsigned
integers). -/
def natToChars (n : Nat) : Str :=
  if n = 0 then ['0']
  else (Nat.digits 10 n).reverse.map digitChar

/-- Decimal rendering of an integer (Rust's `Display` for `i32`). -/
def intToChars (n : Int) : Str :=
  if n < 0 then '-' :: natToChars (-n).toNat else natToChars n.toNat

/-- `Vec::join(sep)` over already-rendered pieces. -/
def joinSep (sep : Str) : List Str → Str
  | [] => []
  | [p] => p
  | p :: ps => p ++ sep ++ joinSep sep ps

/-- `vec_to_str` from src/common/src/recurrence/mod.rs (for `i32` vectors). -/
def vecToStr (xs : List Int) : Str := joinSep [','] (xs.map intToChars)

/-- Left-pad with `'0'` to width `w` (chrono's zero-padded numeric fields). -/
def padZeros (w : Nat) (cs : Str) : Str := List.replicate (w - cs.length) '0' ++ cs

/-- `date.format("%Y%m%d")`: year zero-padded to 4 digits (chrono prints a
sign for years outside 0..=9999), month and day zero-padded to 2. -/
def dateYMD (d : Date) : Str :=
  (if d.year < 0 then '-' :: padZeros 4 (natToChars (-d.year).toNat)
   else if d.year > 9999 then '+' :: natToChars d.year.toNat
   else padZeros 4 (natToChars d.year.toNat)) ++
  padZeros 2 (natToChars d.month) ++ padZeros 2 (natToChars d.day)

/-- `impl Display for RecurrenceRule`: the canonical RRULE text. Parts are
built in the source's order — `FREQ`, `INTERVAL` (omitted when ≤ 1),
`BYYEARDAY`, `BYDAY`, `BYWEEKNO`, `BYMONTHDAY`, `BYSETPOS`, `BYMONTH`,
limit — and joined with `';'` after dropping the absent ones. -/
def displayRule (r : RecurrenceRule) : Str :=
  let freq := ("FREQ=".data) ++ freqStr r.frequency
  let interval :=
    if r.interval > 1 then some (("INTERVAL=".data) ++ intToChars r.interval) else none
  let by_year_day := r.by_year_day.map (fun x => ("BYYEARDAY=".data) ++ vecToStr x)
  let by_week_no := r.by_week_no.map (fun x => ("BYWEEKNO=".data) ++ vecToStr x)
  let by_month_day := r.by_month_day.map (fun x => ("BYMONTHDAY=".data) ++ vecToStr x)
  let by_set_pos := r.by_set_pos.map (fun x => ("BYSETPOS=".data) ++ vecToStr x)
  let by_month := r.by_month.map (fun x =>
    ("BYMONTH=".data) ++ joinSep [','] (x.map (fun m => natToChars m.numberFromMonth)))
  let by_day := r.by_day.map (fun x =>
    ("BYDAY=".data) ++ joinSep [','] (x.map weekdayCode))
  let limit :=
    match r.limit with
    | .indefinite => none
    | .date date => some (("UNTIL=".data) ++ dateYMD date)
    | .count count => some (("COUNT=".data) ++ natToChars count)
  joinSep [';'] (([some freq, interval, by_year_day, by_day, by_week_no,
    by_month_day, by_set_pos, by_month, limit]).filterMap id)

/-! ## RRULE parsing

src/common/src/recurrence/parser.rs is not among the given sources (only
its declaration and callers are), so the parser below is modelled from the
spec, §4.C. -/

/-- The parse-error kinds of §4.C. -/
inductive RRuleParseError where
  | unknownKey (key : Str)
  | missingFreq
  | duplicateKey (key : Str)
  | badValue (key : Str)
  | outOfRange (key : Str)
  | conflictingLimit
  deriving DecidableEq, Repr

/-- `str::split(c)`: split at every occurrence of `c`; `n` separators give
`n + 1` (possibly empty) pieces. -/
def splitOnChar (c : Char) : Str → List Str
  | [] => [[]]
  | x :: xs =>
    if x = c then [] :: splitOnChar c xs
    else
      match splitOnChar c xs with
      | [] => [[x]]
      | p :: ps => (x :: p) :: ps

/-- Whether a character is a decimal digit. -/
def isDigitChar (c : Char) : Bool :=
  decide (48 ≤ c.toNat ∧ c.toNat ≤ 57)

/-- Modelled from the spec: parse a decimal natural number (no sign); fails
on an empty or non-digit string. -/
def parseNatChars (cs : Str) : Option Nat :=
  if cs ≠ [] ∧ cs.all isDigitChar then
    some (cs.foldl (fun a c => 10 * a + (c.toNat - 48)) 0)
  else none

/-- Modelled from the spec: parse a decimal integer with optional `'-'`. -/
def parseIntChars (cs : Str) : Option Int :=
  if cs.head? = some '-' then (parseNatChars cs.tail).map (fun n => -(n : Int))
  else (parseNatChars cs).map (fun n => (n : Int))

/-- Modelled from the spec: `Month` from its 1..12 number. -/
def monthFromNumber (n : Nat) : Option Month :=
  match n with
  | 1 => some .january | 2 => some .february | 3 => some .march
  | 4 => some .april | 5 => some .may | 6 => some .june
  | 7 => some .july | 8 => some .august | 9 => some .september
  | 10 => some .october | 11 => some .november | 12 => some .december
  | _ => none

/-- Modelled from the spec: weekday from its two-letter code. -/
def weekdayFromCode (cs : Str) : Option Weekday :=
  if cs = ("MO".data) then some .mon
  else if cs = ("TU".data) then some .tue
  else if cs = ("WE".data) then some .wed
  else if cs = ("TH".data) then some .thu
  else if cs = ("FR".data) then some .fri
  else if cs = ("SA".data) then some .sat
  else if cs = ("SU".data) then some .sun
  else none

/-- Modelled from the spec: a comma-separated list of integers, each
nonzero and, when `bound = some B`, within `[-B..-1, 1..B]`. -/
def parseIntListV (key : Str) (bound : Option Int) (v : Str) :
    Except RRuleParseError (List Int) :=
  (splitOnChar ',' v).mapM (fun piece =>
    match parseIntChars piece with
    | none => .error (.badValue key)
    | some x =>
      if x = 0 then .error (.outOfRange key)
      else
        match bound with
        | some b => if -b ≤ x ∧ x ≤ b then .ok x else .error (.outOfRange key)
        | none => .ok x)

/-- Modelled from the spec: `BYMONTH`, comma-separated integers 1..12. -/
def parseMonthListV (v : Str) : Except RRuleParseError (List Month) :=
  (splitOnChar ',' v).mapM (fun piece =>
    match parseNatChars piece with
    | none => .error (.badValue ("BYMONTH".data))
    | some n =>
      match monthFromNumber n with
      | some m => .ok m
      | none => .error (.outOfRange ("BYMONTH".data)))

/-- Modelled from the spec: `BYDAY`, comma-separated weekday codes. -/
def parseWeekdayListV (v : Str) : Except RRuleParseError (List Weekday) :=
  (splitOnChar ',' v).mapM (fun piece =>
    match weekdayFromCode piece with
    | some w => .ok w
    | none => .error (.badValue ("BYDAY".data)))

/-- Modelled from the spec: `UNTIL`, a `YYYYMMDD` calendar date. -/
def parseUntilV (v : Str) : Except RRuleParseError Date :=
  if v.length = 8 ∧ v.all isDigitChar then
    match parseNatChars (v.take 4), parseNatChars ((v.drop 4).take 2),
        parseNatChars (v.drop 6) with
    | some y, some m, some d =>
      if 1 ≤ m ∧ m ≤ 12 ∧ 1 ≤ d ∧ d ≤ daysInMonth (y : Int) m then
        .ok ⟨(y : Int), m, d⟩
      else .error (.outOfRange ("UNTIL".data))
    | _, _, _ => .error (.badValue ("UNTIL".data))
  else .error (.badValue ("UNTIL".data))

/-- Modelled from the spec: the recognized keys of §4.C. -/
def knownKeys : List Str :=
  [("FREQ".data), ("INTERVAL".data), ("COUNT".data), ("UNTIL".data),
   ("BYMONTH".data), ("BYWEEKNO".data), ("BYYEARDAY".data),
   ("BYMONTHDAY".data), ("BYDAY".data), ("BYSETPOS".data)]

/-- Modelled from the spec: the at-most-one value of a key among the
`KEY=VALUE` pairs; a repeated key is a `DuplicateKey` error. -/
def getOne (kvs : List (Str × Str)) (key : Str) :
    Except RRuleParseError (Option Str) :=
  match kvs.filter (fun kv => decide (kv.1 = key)) with
  | [] => .ok none
  | [kv] => .ok (some kv.2)
  | _ => .error (.duplicateKey key)

/-- Modelled from the spec: `FREQ` values. -/
def parseFreqV (v : Str) : Except RRuleParseError RecurrenceFreq :=
  if v = ("DAILY".data) then .ok .daily
  else if v = ("WEEKLY".data) then .ok .weekly
  else if v = ("MONTHLY".data) then .ok .monthly
  else if v = ("YEARLY".data) then .ok .yearly
  else .error (.badValue ("FREQ".data))

/-- Modelled from the spec: split the input on `';'` into `KEY=VALUE`
pairs and reject unknown keys. -/
def tokenize (s : Str) : Except RRuleParseError (List (Str × Str)) := do
  let parts := splitOnChar ';' s
  let kvs ← parts.mapM (fun p =>
    match splitOnChar '=' p with
    | [k, v] => Except.ok (k, v)
    | _ => Except.error (RRuleParseError.badValue p))
  if ¬ kvs.all (fun kv => knownKeys.contains kv.1) then
    throw (.unknownKey (match kvs.find? (fun kv => !knownKeys.contains kv.1) with
      | some kv => kv.1
      | none => []))
  else
    pure kvs

/-- Modelled from the spec: the required `FREQ` field. -/
def parseFreqField (kvs : List (Str × Str)) : Except RRuleParseError RecurrenceFreq := do
  match ← getOne kvs ("FREQ".data) with
  | none => throw .missingFreq
  | some v => parseFreqV v

/-- Modelled from the spec: `INTERVAL`, a positive integer, defaulting
to 1. -/
def parseIntervalField (kvs : List (Str × Str)) : Except RRuleParseError Int := do
  match ← getOne kvs ("INTERVAL".data) with
  | none => pure (1 : Int)
  | some v =>
    match parseNatChars v with
    | none => throw (.badValue ("INTERVAL".data))
    | some n => if 1 ≤ n then pure ((n : Int)) else throw (.outOfRange ("INTERVAL".data))

/-- Modelled from the spec: the limit — `COUNT` (positive) or `UNTIL`
(a date), mutually exclusive, defaulting to `Indefinite`. -/
def parseLimitField (kvs : List (Str × Str)) : Except RRuleParseError RecurrenceLimit := do
  let countOpt ← getOne kvs ("COUNT".data)
  let untilOpt ← getOne kvs ("UNTIL".data)
  match countOpt, untilOpt with
  | some _, some _ => throw .conflictingLimit
  | some v, none =>
    match parseNatChars v with
    | none => throw (.badValue ("COUNT".data))
    | some n => if 1 ≤ n then pure (RecurrenceLimit.count n) else throw (.outOfRange ("COUNT".data))
  | none, some v => (parseUntilV v).map RecurrenceLimit.date
  | none, none => pure RecurrenceLimit.indefinite

/-- Modelled from the spec: an optional BY-list field with value parser
`f`. -/
def parseOptListField {α : Type} (key : Str) (f : Str → Except RRuleParseError (List α))
    (kvs : List (Str × Str)) : Except RRuleParseError (Option (List α)) := do
  match ← getOne kvs key with
  | none => pure none
  | some v => (f v).map Option.some

/-- Modelled from the spec, §4.C: the RRULE parser (the source file
src/common/src/recurrence/parser.rs is not under src/). Splits the input
on `';'` into `KEY=VALUE` parts, rejects unknown and duplicate keys,
requires `FREQ`, defaults `INTERVAL` to 1, rejects a `COUNT`/`UNTIL`
conflict, and range-checks every BY-list value. -/
def parseRRule (s : Str) : Except RRuleParseError RecurrenceRule := do
  let kvs ← tokenize s
  let frequency ← parseFreqField kvs
  let interval ← parseIntervalField kvs
  let limit ← parseLimitField kvs
  let by_month ← parseOptListField ("BYMONTH".data) parseMonthListV kvs
  let by_week_no ← parseOptListField ("BYWEEKNO".data)
    (parseIntListV ("BYWEEKNO".data) (some 53)) kvs
  let by_year_day ← parseOptListField ("BYYEARDAY".data)
    (parseIntListV ("BYYEARDAY".data) (some 366)) kvs
  let by_month_day ← parseOptListField ("BYMONTHDAY".data)
    (parseIntListV ("BYMONTHDAY".data) (some 31)) kvs
  let by_day ← parseOptListField ("BYDAY".data) parseWeekdayListV kvs
  let by_set_pos ← parseOptListField ("BYSETPOS".data)
    (parseIntListV ("BYSETPOS".data) none) kvs
  pure { frequency, interval, limit, by_month, by_week_no, by_year_day,
         by_month_day, by_day, by_set_pos }

/-- `RecurrenceRule::new` (parses an RRULE string). -/
def RecurrenceRule.new (rrule : Str) : Except RRuleParseError RecurrenceRule :=
  parseRRule rrule

/-! ## Span model (src/common/src/span.rs) -/

/-- Model of `chrono::NaiveTime` as seconds within the day. -/
structure Time where
  secs : Nat
  deriving DecidableEq, Repr

/-- Model of `chrono::NaiveDateTime`: a date with a time of day
(`NaiveDate::and_time`). -/
structure DateTime where
  date : Date
  time : Time
  deriving DecidableEq, Repr

/-- Strict order on date-times (`chrono::NaiveDateTime`'s order). -/
def dtLt (a b : DateTime) : Prop :=
  dateLt a.date b.date ∨ (a.date = b.date ∧ a.time.secs < b.time.secs)

instance (a b : DateTime) : Decidable (dtLt a b) := by unfold dtLt; infer_instance

/-- Non-strict order on date-times. -/
def dtLe (a b : DateTime) : Prop := dtLt a b ∨ a = b

instance (a b : DateTime) : Decidable (dtLe a b) := by unfold dtLe; infer_instance

/-- Model of `chrono::Duration` at seconds resolution. -/
structure Duration where
  secs : Int
  deriving DecidableEq, Repr

/-- `Duration::days`. -/
def Duration.days (n : Int) : Duration := ⟨n * 86400⟩

/-- `Duration::num_days` (`i64` division truncates toward zero). -/
def Duration.num_days (d : Duration) : Int := d.secs.tdiv 86400

/-- `NaiveDate + Duration` adds the duration's whole days. -/
def dateAddDuration (d : Date) (dur : Duration) : Date := addDays d dur.num_days

/-- `NaiveDateTime + Duration`: exact seconds, carrying whole days into the
date part. -/
def dtAddDuration (dt : DateTime) (dur : Duration) : DateTime :=
  let total : Int := (dt.time.secs : Int) + dur.secs
  ⟨addDays dt.date (total.fdiv 86400), ⟨(total.emod 86400).toNat⟩⟩

/-- `EventDateSpan` from src/common/src/span.rs. -/
structure EventDateSpan where
  start : Date
  «end» : Date
  deriving DecidableEq, Repr

/-- `EventDateTimeSpan` from src/common/src/span.rs. -/
structure EventDateTimeSpan where
  start : DateTime
  «end» : DateTime
  deriving DecidableEq, Repr

/-- `EventDateTimeSpan::as_date_span`. -/
def EventDateTimeSpan.as_date_span (s : EventDateTimeSpan) : EventDateSpan :=
  ⟨s.start.date, s.«end».date⟩

/-- `EventSpan` from src/common/src/span.rs. -/
inductive EventSpan where
  | date (s : EventDateSpan)
  | dateTime (s : EventDateTimeSpan)
  deriving DecidableEq, Repr

/-- `EventSpan::get_date_span`. -/
def EventSpan.get_date_span : EventSpan → EventDateSpan
  | .date s => s
  | .dateTime s => s.as_date_span

/-- `EventSpan::get_date_time_span`. -/
def EventSpan.get_date_time_span : EventSpan → Option EventDateTimeSpan
  | .date _ => none
  | .dateTime s => some s

/-- `EventSpan::get_start_date`. -/
def EventSpan.get_start_date (s : EventSpan) : Date := s.get_date_span.start

/-- `EventSpan::get_end_date`. -/
def EventSpan.get_end_date (s : EventSpan) : Date := s.get_date_span.«end»

/-- `EventSpan::get_start_time`. -/
def EventSpan.get_start_time (s : EventSpan) : Option Time :=
  s.get_date_time_span.map (fun dt => dt.start.time)

/-- `EventSpan::get_end_time`. -/
def EventSpan.get_end_time (s : EventSpan) : Option Time :=
  s.get_date_time_span.map (fun dt => dt.«end».time)

/-- `EventSpan::get_duration` (date subtraction yields whole days). -/
def EventSpan.get_duration : EventSpan → Duration
  | .date s => ⟨(toRD s.«end» - toRD s.start) * 86400⟩
  | .dateTime s =>
    ⟨(toRD s.«end».date * 86400 + s.«end».time.secs) -
      (toRD s.start.date * 86400 + s.start.time.secs)⟩

/-- `EventSpan::from_date_and_duration`. -/
def EventSpan.from_date_and_duration (start : Date) (duration : Duration) : EventSpan :=
  .date ⟨start, dateAddDuration start duration⟩

/-- `EventSpan::from_date_time_and_duration`. -/
def EventSpan.from_date_time_and_duration (start : DateTime) (duration : Duration) :
    EventSpan :=
  .dateTime ⟨start, dtAddDuration start duration⟩

/-! ## Event model (src/common/src/event.rs) -/

/-- Opaque model of `uuid::Uuid`. -/
structure Uuid where
  val : Nat
  deriving DecidableEq, Repr

/-- `EventRecurrence` from src/common/src/event.rs. -/
structure EventRecurrence where
  rule : RecurrenceRule
  exdates : List Date
  rdates : List Date
  deriving DecidableEq, Repr

/-- `EventRecurring` from src/common/src/event.rs. -/
structure EventRecurring where
  id : Uuid
  span : EventSpan
  recurrence : EventRecurrence
  last_modified : DateTime
  deriving DecidableEq, Repr

/-- `EventSingle` from src/common/src/event.rs. -/
structure EventSingle where
  id : Uuid
  parent_id : Option Uuid
  span : EventSpan
  last_modified : DateTime
  deriving DecidableEq, Repr

/-- `Event` from src/common/src/event.rs. -/
inductive Event where
  | recurring (e : EventRecurring)
  | single (e : EventSingle)
  deriving DecidableEq, Repr

/-- `RecurrencePlain` from src/common/src/event.rs. -/
structure RecurrencePlain where
  rrule : Option Str
  exdates : Option (List Date)
  rdates : Option (List Date)
  deriving DecidableEq, Repr

/-- `EventPlain` from src/common/src/event.rs (the all-optional wire form). -/
structure EventPlain where
  id : Option Uuid
  parent_id : Option Uuid
  start_date : Option Date
  start_time : Option Time
  end_date : Option Date
  end_time : Option Time
  recurrence : Option RecurrencePlain
  last_modified : Option DateTime
  deriving DecidableEq, Repr

/-- `FromPlainError` from src/common/src/event.rs. -/
inductive FromPlainError where
  | missingField
  | invalidSpan
  | rruleParseError (e : RRuleParseError)
  deriving DecidableEq, Repr

/-- `EventPlain::validate_non_patch`. -/
def validate_non_patch (e : EventPlain) : Bool :=
  if e.start_date.isNone || e.end_date.isNone then false
  else if e.start_time.isSome != e.end_time.isSome then false
  else
    match e.recurrence with
    | some recurrence =>
      if recurrence.rrule.isNone || recurrence.exdates.isNone || recurrence.rdates.isNone
      then false
      else true
    | none => true

/-- `TryFrom<RecurrencePlain> for EventRecurrence`. -/
def eventRecurrenceTryFrom (value : RecurrencePlain) :
    Except FromPlainError EventRecurrence :=
  match value.rrule with
  | none => .error .missingField
  | some rr =>
    match RecurrenceRule.new rr with
    | .error e => .error (.rruleParseError e)
    | .ok rule => .ok ⟨rule, value.exdates.getD [], value.rdates.getD []⟩

/-- `TryFrom<EventPlain> for Event`. -/
def eventTryFromPlain (value : EventPlain) : Except FromPlainError Event :=
  match value.start_date, value.end_date with
  | some sd, some ed =>
    if value.start_time.isSome != value.end_time.isSome then .error .invalidSpan
    else
      match value.id with
      | none => .error .missingField
      | some id =>
        match value.last_modified with
        | none => .error .missingField
        | some lm =>
          let span : EventSpan :=
            match value.start_time, value.end_time with
            | some st, some et => .dateTime ⟨⟨sd, st⟩, ⟨ed, et⟩⟩
            | _, _ => .date ⟨sd, ed⟩
          match value.recurrence with
          | some rp =>
            (eventRecurrenceTryFrom rp).map (fun r => Event.recurring ⟨id, span, r, lm⟩)
          | none => .ok (Event.single ⟨id, value.parent_id, span, lm⟩)
  | _, _ => .error .missingField

/-- `ToPlain<EventPlain> for EventRecurring`: `into_plain`. -/
def EventRecurring.into_plain (e : EventRecurring) : EventPlain :=
  { id := some e.id
    parent_id := none
    start_date := some e.span.get_start_date
    end_date := some e.span.get_end_date
    start_time := e.span.get_start_time
    end_time := e.span.get_end_time
    recurrence := some
      { rrule := some (displayRule e.recurrence.rule)
        exdates := some e.recurrence.exdates
        rdates := some e.recurrence.rdates }
    last_modified := some e.last_modified }

/-- `ToPlain<EventPlain> for EventSingle`: `into_plain`. -/
def EventSingle.into_plain (e : EventSingle) : EventPlain :=
  { id := some e.id
    parent_id := e.parent_id
    start_date := some e.span.get_start_date
    end_date := some e.span.get_end_date
    start_time := e.span.get_start_time
    end_time := e.span.get_end_time
    recurrence := none
    last_modified := some e.last_modified }

/-- `ToPlain<EventPlain> for Event`: `into_plain`. -/
def Event.into_plain : Event → EventPlain
  | .recurring e => e.into_plain
  | .single e => e.into_plain

/-! ## Derived definitions used by the verification -/

/-- The all-`None` daily rule (the `DEFAULT_RECURRENCE_RULE` of the source's
tests), used as a base for concrete rules. -/
def baseRule : RecurrenceRule :=
  { frequency := .daily
    interval := 1
    limit := .indefinite
    by_month := none
    by_week_no := none
    by_year_day := none
    by_month_day := none
    by_day := none
    by_set_pos := none }

/-- The first `n` emissions of the iterator, giving each `next` call
`perCall` loop iterations of fuel. -/
def take_emits (perCall : Nat) : Nat → RRuleInstances → List Date
  | 0, _ => []
  | n + 1, s =>
    match next_fuel perCall s with
    | some (.emitted d s2) => d :: take_emits perCall n s2
    | _ => []

/-- The `BYMONTH` clause of the spec's filter predicate (§4.F): a date
matches when `month(d) ∈ by_month`, or the filter is absent. (Stated from
the spec's words, to compare with the source's `check_by_month`.) -/
def byMonthSpec (rule : RecurrenceRule) (d : Date) : Bool :=
  match rule.by_month with
  | some l => (l.map Month.numberFromMonth).contains d.month
  | none => true

/-- The acceptability condition §4.G states for a non-PATCH plain event
(claim C7's right-hand side), written from the spec's words. -/
def acceptableNonPatchSpec (e : EventPlain) : Bool :=
  e.start_date.isSome && e.end_date.isSome &&
  (e.start_time.isSome == e.end_time.isSome) &&
  (match e.recurrence with
   | some r => r.rrule.isSome
   | none => true)

/-- The span invariant `start ≤ end` of §3, on either span flavor. -/
def spanStartLeEnd : EventSpan → Prop
  | .date s => dateLe s.start s.«end»
  | .dateTime s => dtLe s.start s.«end»

instance : (s : EventSpan) → Decidable (spanStartLeEnd s)
  | .date _ => inferInstanceAs (Decidable (dateLe _ _))
  | .dateTime _ => inferInstanceAs (Decidable (dtLe _ _))

/-- The span carried by a typed event. -/
def eventSpanOf : Event → EventSpan
  | .recurring e => e.span
  | .single e => e.span

/-- The ordering side condition on a plain event's endpoint fields
(date pair ordered; when times are present, the date-times ordered). -/
def orderedPlain (p : EventPlain) : Prop :=
  match p.start_date, p.end_date, p.start_time, p.end_time with
  | some sd, some ed, some st, some et => dtLe ⟨sd, st⟩ ⟨ed, et⟩
  | some sd, some ed, none, none => dateLe sd ed
  | _, _, _, _ => True

/-- The recurrence block of `into_plain` output is complete for recurring
events and absent for single events. -/
def plainRecurrenceOk (e : Event) : Prop :=
  match e with
  | .recurring er =>
    e.into_plain.recurrence = some
      { rrule := some (displayRule er.recurrence.rule)
        exdates := some er.recurrence.exdates
        rdates := some er.recurrence.rdates }
  | .single _ => e.into_plain.recurrence = none

/-- Measure embedding the (year, month, day) order into `Int` for sane
dates: a day of advance increases it by at least one. -/
def dateMeasure (d : Date) : Int :=
  372 * d.year + 31 * (d.month : Int) + (d.day : Int)

/-- C1's concrete input: a daily rule with user-supplied `by_day`,
`by_month_day` and `by_year_day` filters (plus the pass-through filters). -/
def c1_rule : RecurrenceRule :=
  { baseRule with
    by_day := some [.mon]
    by_month_day := some [10]
    by_year_day := some [100]
    by_month := some [.may]
    by_week_no := some [5]
    by_set_pos := some [2] }

/-- C2's concrete input: `FREQ=DAILY;BYMONTH=1` anchored at 2020-01-31. -/
def c2_instances : RRuleInstances :=
  RRuleInstances.new (RecurrenceRuleInstance.new
    { baseRule with by_month := some [.january] } ⟨2020, 1, 31⟩)

/-- The iterator state after C2's first emission. -/
def c2_after : RRuleInstances :=
  { rule := { baseRule with by_month := some [.january] }
    start_date := ⟨2020, 1, 31⟩
    instance_count := 1
    last_instance_date := ⟨2020, 2, 1⟩
    current_date := ⟨2020, 2, 2⟩ }

/-- C3's concrete input: `FREQ=YEARLY;BYWEEKNO=2,4,6` anchored at
2020-09-26 (the rule of scenario S6). -/
def c3_instances : RRuleInstances :=
  RRuleInstances.new (RecurrenceRuleInstance.new
    { baseRule with frequency := .yearly, by_week_no := some [2, 4, 6] } ⟨2020, 9, 26⟩)

/-- C5's concrete input: `FREQ=MONTHLY;INTERVAL=2` anchored at 2020-01-05
(instantiation infers `by_month_day = [5]`). -/
def c5_instances : RRuleInstances :=
  RRuleInstances.new (RecurrenceRuleInstance.new
    { baseRule with frequency := .monthly, interval := 2 } ⟨2020, 1, 5⟩)

/-- The iterator state after C5's first emission. -/
def c5_after : RRuleInstances :=
  { rule :=
      { baseRule with
        frequency := .monthly
        interval := 2
        by_month_day := some [5] }
    start_date := ⟨2020, 1, 5⟩
    instance_count := 1
    last_instance_date := ⟨2020, 1, 5⟩
    current_date := ⟨2020, 1, 7⟩ }

/-- C7's concrete input: a plain event whose recurrence block has an rrule
but no exdates/rdates lists. -/
def c7_plain : EventPlain :=
  { id := none
    parent_id := none
    start_date := some ⟨2020, 1, 1⟩
    start_time := none
    end_date := some ⟨2020, 1, 2⟩
    end_time := none
    recurrence := some { rrule := some ("FREQ=DAILY".data), exdates := none, rdates := none }
    last_modified := none }

/-- All twelve months, in order. -/
def allMonths : List Month :=
  [.january, .february, .march, .april, .may, .june, .july, .august,
   .september, .october, .november, .december]

/-- C4's concrete input: an indefinite daily rule whose `BYMONTH` filter
lists every month — under the source's inverted membership test no date
ever matches, and no limit or horizon ever stops the scan. -/
def c4_instances : RRuleInstances :=
  RRuleInstances.new (RecurrenceRuleInstance.new
    { baseRule with by_month := some allMonths } ⟨2020, 1, 1⟩)

/-- C8's concrete input: the plain daily rule anchored at 2020-01-01. -/
def c8_instances : RRuleInstances :=
  RRuleInstances.new (RecurrenceRuleInstance.new baseRule ⟨2020, 1, 1⟩)

/-- C8's state after the first emission. -/
def c8_after : RRuleInstances :=
  { rule := baseRule
    start_date := ⟨2020, 1, 1⟩
    instance_count := 1
    last_instance_date := ⟨2020, 1, 1⟩
    current_date := ⟨2020, 1, 2⟩ }

/-- C8's state after the second emission. -/
def c8_after2 : RRuleInstances :=
  { rule := baseRule
    start_date := ⟨2020, 1, 1⟩
    instance_count := 2
    last_instance_date := ⟨2020, 1, 2⟩
    current_date := ⟨2020, 1, 3⟩ }

/-- The constraint a parsed limit satisfies: a positive count, or a
calendar date with a four-digit year. -/
def WFLimit (lim : RecurrenceLimit) : Prop :=
  match lim with
  | .indefinite => True
  | .count n => 1 ≤ n
  | .date d => 0 ≤ d.year ∧ d.year ≤ 9999 ∧ 1 ≤ d.month ∧ d.month ≤ 12 ∧
      1 ≤ d.day ∧ d.day ≤ daysInMonth d.year d.month

/-- The optional symmetric range check applied to each parsed list entry. -/
def boundedBy (bound : Option Int) (x : Int) : Prop :=
  match bound with
  | some b => -b ≤ x ∧ x ≤ b
  | none => True

/-- The range constraints that every rule in the parser's image satisfies
(used to state and prove the round-trip law): positive interval, positive
count or a 4-digit-year calendar date as limit, and nonempty, range-checked
BY-lists. -/
def WellFormedRule (r : RecurrenceRule) : Prop :=
  1 ≤ r.interval ∧ WFLimit r.limit ∧
  (∀ l, r.by_month = some l → l ≠ []) ∧
  (∀ l, r.by_week_no = some l → l ≠ [] ∧ ∀ x ∈ l, x ≠ 0 ∧ -53 ≤ x ∧ x ≤ 53) ∧
  (∀ l, r.by_year_day = some l → l ≠ [] ∧ ∀ x ∈ l, x ≠ 0 ∧ -366 ≤ x ∧ x ≤ 366) ∧
  (∀ l, r.by_month_day = some l → l ≠ [] ∧ ∀ x ∈ l, x ≠ 0 ∧ -31 ≤ x ∧ x ≤ 31) ∧
  (∀ l, r.by_day = some l → l ≠ []) ∧
  (∀ l, r.by_set_pos = some l → l ≠ [] ∧ ∀ x ∈ l, x ≠ 0)

/-- One `KEY=VALUE` pair as a (possibly empty) token-list segment. -/
def segOf (key : Str) (v : Option Str) : List (Str × Str) :=
  match v with
  | none => []
  | some v => [(key, v)]

/-- One `KEY=VALUE` part as a (possibly empty) part-list segment. -/
def pSeg (key : Str) (v : Option Str) : List Str :=
  match v with
  | none => []
  | some v => [key ++ '=' :: v]

/-- The printed `INTERVAL` value (omitted when ≤ 1). -/
def intervalValOpt (r : RecurrenceRule) : Option Str :=
  if r.interval > 1 then some (intToChars r.interval) else none

/-- The printed `BYMONTH` value. -/
def byMonthValOpt (r : RecurrenceRule) : Option Str :=
  r.by_month.map (fun x => joinSep [','] (x.map (fun m => natToChars m.numberFromMonth)))

/-- The printed `BYDAY` value. -/
def byDayValOpt (r : RecurrenceRule) : Option Str :=
  r.by_day.map (fun x => joinSep [','] (x.map weekdayCode))

/-- The printed `UNTIL` value. -/
def untilValOpt (r : RecurrenceRule) : Option Str :=
  match r.limit with
  | .date d => some (dateYMD d)
  | _ => none

/-- The printed `COUNT` value. -/
def countValOpt (r : RecurrenceRule) : Option Str :=
  match r.limit with
  | .count c => some (natToChars c)
  | _ => none

/-- The parts of the canonical RRULE text, as segments in printing order. -/
def partsOf (r : RecurrenceRule) : List Str :=
  pSeg ("FREQ".data) (some (freqStr r.frequency)) ++
  pSeg ("INTERVAL".data) (intervalValOpt r) ++
  pSeg ("BYYEARDAY".data) (r.by_year_day.map vecToStr) ++
  pSeg ("BYDAY".data) (byDayValOpt r) ++
  pSeg ("BYWEEKNO".data) (r.by_week_no.map vecToStr) ++
  pSeg ("BYMONTHDAY".data) (r.by_month_day.map vecToStr) ++
  pSeg ("BYSETPOS".data) (r.by_set_pos.map vecToStr) ++
  pSeg ("BYMONTH".data) (byMonthValOpt r) ++
  (pSeg ("UNTIL".data) (untilValOpt r) ++ pSeg ("COUNT".data) (countValOpt r))

/-- The `KEY=VALUE` pairs of the canonical RRULE text. -/
def kvsOf (r : RecurrenceRule) : List (Str × Str) :=
  segOf ("FREQ".data) (some (freqStr r.frequency)) ++
  segOf ("INTERVAL".data) (intervalValOpt r) ++
  segOf ("BYYEARDAY".data) (r.by_year_day.map vecToStr) ++
  segOf ("BYDAY".data) (byDayValOpt r) ++
  segOf ("BYWEEKNO".data) (r.by_week_no.map vecToStr) ++
  segOf ("BYMONTHDAY".data) (r.by_month_day.map vecToStr) ++
  segOf ("BYSETPOS".data) (r.by_set_pos.map vecToStr) ++
  segOf ("BYMONTH".data) (byMonthValOpt r) ++
  (segOf ("UNTIL".data) (untilValOpt r) ++ segOf ("COUNT".data) (countValOpt r))

/-- A character that may appear in a printed value: neither the part
separator `';'` nor the key separator `'='`. -/
def ValueChar (c : Char) : Prop := c ≠ ';' ∧ c ≠ '='

/-- C6's concrete witness input (scenario S7). -/
def c6_input : Str := ("FREQ=MONTHLY;INTERVAL=3;BYMONTHDAY=1,15;COUNT=10".data)

/-- The rule scenario S7's string parses to. -/
def c6_rule : RecurrenceRule :=
  { frequency := .monthly
    interval := 3
    limit := .count 10
    by_month := none
    by_week_no := none
    by_year_day := none
    by_month_day := some [1, 15]
    by_day := none
    by_set_pos := none }

/-! ## Date-order lemmas -/

theorem dateLt_trans {a b c : Date} (h1 : dateLt a b) (h2 : dateLt b c) :
    dateLt a c := by
  unfold dateLt at *; omega

theorem dateLt_of_lt_of_le {a b c : Date} (h1 : dateLt a b) (h2 : dateLe b c) :
    dateLt a c := by
  rcases h2 with h2 | rfl
  · exact dateLt_trans h1 h2
  · exact h1

theorem dateLe_trans {a b c : Date} (h1 : dateLe a b) (h2 : dateLe b c) :
    dateLe a c := by
  rcases h1 with h1 | rfl
  · exact Or.inl (dateLt_of_lt_of_le h1 h2)
  · exact h2

theorem dateLt_nextDay (d : Date) : dateLt d (nextDay d) := by
  unfold nextDay
  split_ifs <;> simp [dateLt]

theorem dateLe_addDaysNat (d : Date) (n : Nat) : dateLe d (addDaysNat d n) := by
  induction n generalizing d with
  | zero => exact Or.inr rfl
  | succ m ih =>
    exact dateLe_trans (Or.inl (dateLt_nextDay d)) (ih (nextDay d))

theorem dateLt_addDaysNat (d : Date) (n : Nat) (h : 1 ≤ n) :
    dateLt d (addDaysNat d n) := by
  cases n with
  | zero => omega
  | succ m => exact dateLt_of_lt_of_le (dateLt_nextDay d) (dateLe_addDaysNat (nextDay d) m)

theorem dateLe_addDays (d : Date) (k : Int) (h : 0 ≤ k) :
    dateLe d (addDays d k) := by
  unfold addDays
  rw [if_pos h]
  exact dateLe_addDaysNat d k.toNat

theorem dateLt_addDays (d : Date) (k : Int) (h : 1 ≤ k) :
    dateLt d (addDays d k) := by
  unfold addDays
  rw [if_pos (by omega : (0 : Int) ≤ k)]
  exact dateLt_addDaysNat d k.toNat (by omega)

/-! ## Shape of an emission of `next` -/

theorem next_fuel_emitted_shape :
    ∀ (fuel : Nat) (s : RRuleInstances) (d : Date) (s' : RRuleInstances),
    1 ≤ s.rule.interval →
    next_fuel fuel s = some (.emitted d s') →
    dateLe s.current_date d ∧ s'.rule = s.rule ∧
      s'.current_date = addDays d s.rule.interval := by
  intro fuel
  induction fuel with
  | zero => intro s d s' _ h; simp [next_fuel] at h
  | succ n ih =>
    intro s d s' hint h
    rw [next_fuel] at h
    cases hfit : fits_into_rule s.rule s.current_date with
    | error p => rw [hfit] at h; simp at h
    | ok fits =>
      rw [hfit] at h
      dsimp only at h
      by_cases hstop : limitReached s
      · rw [if_pos hstop] at h; simp at h
      · rw [if_neg hstop] at h
        by_cases hm : fits = true ∧
            (freq_diff s.rule s.current_date s.last_instance_date ≥ s.rule.interval ∨
             freq_diff s.rule s.current_date s.last_instance_date = 0)
        · rw [if_pos hm] at h
          simp only [Option.some.injEq, StepRes.emitted.injEq] at h
          obtain ⟨hd, hs⟩ := h
          subst hd; subst hs
          exact ⟨Or.inr rfl, rfl, rfl⟩
        · rw [if_neg hm] at h
          have hint2 : 1 ≤ (advanceState s).rule.interval := hint
          obtain ⟨hle, hrule, hcur⟩ := ih (advanceState s) d s' hint2 h
          refine ⟨?_, hrule, hcur⟩
          exact dateLe_trans (Or.inl (dateLt_addDays s.current_date s.rule.interval hint)) hle

theorem dtLe_of_date_eq_time_le {a b : DateTime} (h1 : a.date = b.date)
    (h2 : a.time.secs ≤ b.time.secs) : dtLe a b := by
  rcases Nat.lt_or_ge a.time.secs b.time.secs with h | h
  · exact Or.inl (Or.inr ⟨h1, h⟩)
  · right
    obtain ⟨ad, ⟨as'⟩⟩ := a
    obtain ⟨bd, ⟨bs⟩⟩ := b
    simp only at h1 h2 h
    rw [h1]
    have : as' = bs := by omega
    rw [this]

/-! ## Sanity and measure lemmas for calendar stepping -/

theorem daysInMonth_le_31 (y : Int) (m : Nat) : daysInMonth y m ≤ 31 := by
  unfold daysInMonth
  split <;> first | omega | (split <;> omega)

theorem sane_nextDay {d : Date} (h : d.Sane) : (nextDay d).Sane := by
  have h31 := daysInMonth_le_31 d.year d.month
  obtain ⟨h1, h2, h3, h4⟩ := h
  unfold nextDay Date.Sane
  split_ifs <;> dsimp only <;> omega

theorem measure_nextDay {d : Date} (h : d.Sane) :
    dateMeasure d + 1 ≤ dateMeasure (nextDay d) := by
  obtain ⟨h1, h2, h3, h4⟩ := h
  unfold nextDay dateMeasure
  split_ifs <;> dsimp only <;> omega

theorem sane_measure_addDaysNat :
    ∀ (n : Nat) (d : Date), d.Sane →
    (addDaysNat d n).Sane ∧
      dateMeasure d + n ≤ dateMeasure (addDaysNat d n) := by
  intro n
  induction n with
  | zero => intro d h; exact ⟨h, by simp [addDaysNat]⟩
  | succ m ih =>
    intro d h
    have hs := sane_nextDay h
    have hm := measure_nextDay h
    obtain ⟨hs2, hm2⟩ := ih (nextDay d) hs
    have heq : addDaysNat d (m + 1) = addDaysNat (nextDay d) m := rfl
    rw [heq]
    exact ⟨hs2, by omega⟩

theorem sane_addDays {d : Date} (k : Int) (h0 : 0 ≤ k) (h : d.Sane) :
    (addDays d k).Sane := by
  unfold addDays
  rw [if_pos h0]
  exact (sane_measure_addDaysNat k.toNat d h).1

theorem measure_addDays {d : Date} (k : Int) (h0 : 0 ≤ k) (h : d.Sane) :
    dateMeasure d + k ≤ dateMeasure (addDays d k) := by
  unfold addDays
  rw [if_pos h0]
  have := (sane_measure_addDaysNat k.toNat d h).2
  omega

theorem measure_le_of_sane {d : Date} (h : d.Sane) :
    dateMeasure d ≤ 372 * d.year + 403 := by
  obtain ⟨h1, h2, h3, h4⟩ := h
  unfold dateMeasure
  omega

theorem dateLt_of_measure_big {U c : Date} (hc : c.Sane)
    (h : 372 * U.year + 404 ≤ dateMeasure c) : dateLt U c := by
  have := measure_le_of_sane hc
  exact Or.inl (by omega)

/-! ## Termination of `next` under an `UNTIL` limit -/

theorem next_fuel_one_isSome_of_limit {s : RRuleInstances}
    (hstop : limitReached s = true) : (next_fuel 1 s).isSome := by
  rw [next_fuel]
  cases hfit : fits_into_rule s.rule s.current_date with
  | error p => simp
  | ok fits => dsimp only; rw [if_pos hstop]; simp

theorem next_fuel_until_terminates :
    ∀ (n : Nat) (s : RRuleInstances) (U : Date),
    s.rule.limit = .date U → 1 ≤ s.rule.interval → s.current_date.Sane →
    (372 * U.year + 404 - dateMeasure s.current_date).toNat ≤ n →
    ∃ f, (next_fuel f s).isSome := by
  intro n
  induction n with
  | zero =>
    intro s U hU hint hsane hgap
    have hbig : 372 * U.year + 404 ≤ dateMeasure s.current_date := by omega
    have hstop : limitReached s = true := by
      unfold limitReached
      rw [hU]
      simp [dateLt_of_measure_big hsane hbig]
    exact ⟨1, next_fuel_one_isSome_of_limit hstop⟩
  | succ n ih =>
    intro s U hU hint hsane hgap
    by_cases hbig : 372 * U.year + 404 ≤ dateMeasure s.current_date
    · have hstop : limitReached s = true := by
        unfold limitReached
        rw [hU]
        simp [dateLt_of_measure_big hsane hbig]
      exact ⟨1, next_fuel_one_isSome_of_limit hstop⟩
    · cases hfit : fits_into_rule s.rule s.current_date with
      | error p =>
        refine ⟨1, ?_⟩
        rw [next_fuel, hfit]
        simp
      | ok fits =>
        by_cases hstop : limitReached s
        · exact ⟨1, next_fuel_one_isSome_of_limit hstop⟩
        · by_cases hm : fits = true ∧
              (freq_diff s.rule s.current_date s.last_instance_date ≥ s.rule.interval ∨
               freq_diff s.rule s.current_date s.last_instance_date = 0)
          · refine ⟨1, ?_⟩
            rw [next_fuel, hfit]
            dsimp only
            rw [if_neg hstop, if_pos hm]
            simp
          · have hsane2 : (advanceState s).current_date.Sane :=
              sane_addDays s.rule.interval (by omega) hsane
            have hmeas := measure_addDays s.rule.interval (by omega) hsane
            have hgap2 : (372 * U.year + 404 -
                dateMeasure (advanceState s).current_date).toNat ≤ n := by
              have : dateMeasure s.current_date + s.rule.interval ≤
                  dateMeasure (advanceState s).current_date := hmeas
              omega
            obtain ⟨f, hf⟩ := ih (advanceState s) U hU hint hsane2 hgap2
            refine ⟨f + 1, ?_⟩
            rw [next_fuel, hfit]
            dsimp only
            rw [if_neg hstop, if_neg hm]
            exact hf

/-! ## The inverted `BYMONTH` check rejects every sane date when all
twelve months are listed -/

theorem find_allMonths_isSome (m : Nat) (h1 : 1 ≤ m) (h2 : m ≤ 12) :
    (allMonths.find? (fun x => x.numberFromMonth == m)).isSome = true := by
  interval_cases m <;> decide

theorem c4_rule_shape :
    c4_instances.rule.by_month = some allMonths ∧
    c4_instances.rule.limit = .indefinite ∧
    c4_instances.rule.interval = 1 := by
  decide

theorem c4_never_returns :
    ∀ (f : Nat) (s : RRuleInstances),
    s.rule = c4_instances.rule → s.current_date.Sane → next_fuel f s = none := by
  intro f
  induction f with
  | zero => intro s _ _; rfl
  | succ n ih =>
    intro s hr hsane
    have hcm : check_by_month s.rule s.current_date = false := by
      unfold check_by_month
      rw [hr, c4_rule_shape.1]
      have := find_allMonths_isSome s.current_date.month hsane.1 hsane.2.1
      simp [Option.isNone_eq_false_iff, Option.isSome_iff_exists] at this ⊢
      exact this
    have hfit : fits_into_rule s.rule s.current_date = .ok false := by
      unfold fits_into_rule
      rw [if_neg (by simp [hcm])]
      rfl
    have hstop : limitReached s = false := by
      unfold limitReached
      rw [hr, c4_rule_shape.2.1]
    rw [next_fuel, hfit]
    dsimp only
    rw [if_neg (by simp [hstop]), if_neg (by simp)]
    refine ih (advanceState s) hr ?_
    exact sane_addDays s.rule.interval (by rw [hr, c4_rule_shape.2.2]; omega) hsane

/-! ## Claim theorems -/

/-- C1: the claim says instantiation preserves every user-supplied BY
filter. It does not: `infer_stuff` rebuilds `by_day`, `by_month_day` and
`by_year_day` from fresh `None`-initialized locals, so a user-supplied
value of any of these three is dropped whenever the inference branch for
it does not fire; here a daily rule loses its `by_day`, `by_month_day`
and `by_year_day` (while `by_month`, `by_week_no`, `by_set_pos` survive
via the `..rule` spread). -/
theorem c1_infer_drops_user_filters :
    c1_rule.by_day = some [Weekday.mon] ∧
    c1_rule.by_month_day = some [10] ∧
    c1_rule.by_year_day = some [100] ∧
    (infer_stuff c1_rule ⟨2020, 1, 1⟩).by_day = none ∧
    (infer_stuff c1_rule ⟨2020, 1, 1⟩).by_month_day = none ∧
    (infer_stuff c1_rule ⟨2020, 1, 1⟩).by_year_day = none ∧
    (infer_stuff c1_rule ⟨2020, 1, 1⟩).by_month = c1_rule.by_month ∧
    (infer_stuff c1_rule ⟨2020, 1, 1⟩).by_week_no = c1_rule.by_week_no ∧
    (infer_stuff c1_rule ⟨2020, 1, 1⟩).by_set_pos = c1_rule.by_set_pos := by
  decide

/-- C2: the claim says every emitted date satisfies the filter predicate,
in particular `month(d) ∈ by_month`. The source's `check_by_month` returns
`find(..).is_none()`, inverting the membership test, so the rule
`FREQ=DAILY;BYMONTH=1` anchored at 2020-01-31 emits 2020-02-01 — a date
whose month (February) is not in `by_month = [January]`. -/
theorem c2_emits_month_outside_by_month :
    next_fuel 2 c2_instances = some (.emitted ⟨2020, 2, 1⟩ c2_after) ∧
    byMonthSpec c2_instances.rule ⟨2020, 2, 1⟩ = false := by
  decide

/-- C3 (counterexample): for the instantiated rule
`FREQ=YEARLY;BYWEEKNO=2,4,6` (scenario S6's rule) the first `next()` call
does not report a `RuleDomainError` value and terminate cleanly — it hits
the `unimplemented!()` panic inside `check_by_week_no`. -/
theorem c3_panics_on_by_week_no :
    next_fuel 1 c3_instances = some (.panicked .byWeekNoUnimplemented) := by
  decide

/-- C3 (amended): for every iterator state whose rule carries a
`BYWEEKNO` filter (and no `BYMONTH` filter, which would be evaluated
first and could short-circuit), every `next()` call panics — inside
`check_by_week_no`, whatever the frequency — and emits nothing; the
sequence ends with a Rust panic, not with a reported `RuleDomainError`
value. -/
theorem c3_amended_panics (s : RRuleInstances) (l : List Int) (fuel : Nat)
    (h1 : s.rule.by_week_no = some l) (h2 : s.rule.by_month = none) :
    ∃ p, next_fuel (fuel + 1) s = some (.panicked p) := by
  refine ⟨if s.rule.frequency = .yearly then .byWeekNoUnimplemented else .byWeekNoNotYearly, ?_⟩
  rw [next_fuel]
  have hmonth : check_by_month s.rule s.current_date = true := by
    unfold check_by_month; rw [h2]
  have hweek : check_by_week_no s.rule s.current_date =
      .error (if s.rule.frequency = .yearly then .byWeekNoUnimplemented
              else .byWeekNoNotYearly) := by
    unfold check_by_week_no; rw [h1]
    by_cases hf : s.rule.frequency = .yearly
    · rw [if_neg (by simp [hf]), if_pos hf]
    · rw [if_pos (by simp [hf]), if_neg hf]
  have : fits_into_rule s.rule s.current_date =
      .error (if s.rule.frequency = .yearly then .byWeekNoUnimplemented
              else .byWeekNoNotYearly) := by
    unfold fits_into_rule
    rw [if_pos hmonth, hweek]
    rfl
  rw [this]

theorem c3_amended_panics_witness :
    ∃ p, next_fuel 1 c3_instances = some (.panicked p) :=
  c3_amended_panics c3_instances [2, 4, 6] 0 (by decide) (by decide)

set_option maxRecDepth 40000 in
/-- C5: the claim says each iterator step advances `current_date` by
exactly one day, so every calendar day is evaluated. The source advances
by `interval` days: for `FREQ=MONTHLY;INTERVAL=2` anchored at 2020-01-05
the state after the first emission has `current_date` 2020-01-07 (one-day
stepping would give 2020-01-06), and the emitted sequence starts
2020-01-05, 2020-03-05, 2020-06-05 — 2020-05-05 falls on a skipped day
and is never evaluated, while 2020-06-05 (only one month after a spec
emission at 2020-05-05) is emitted. -/
theorem c5_advances_by_interval_days :
    next_fuel 1 c5_instances = some (.emitted ⟨2020, 1, 5⟩ c5_after) ∧
    c5_after.current_date = ⟨2020, 1, 7⟩ ∧
    take_emits 100 3 c5_instances = [⟨2020, 1, 5⟩, ⟨2020, 3, 5⟩, ⟨2020, 6, 5⟩] := by
  decide

/-- C7 (counterexample): a plain event satisfying the claim's three
conditions (dates present, time parity, recurrence block has its rrule)
that `validate_non_patch` nevertheless rejects, because the source also
requires `exdates` and `rdates` to be present. -/
theorem c7_spec_acceptable_but_rejected :
    acceptableNonPatchSpec c7_plain = true ∧ validate_non_patch c7_plain = false := by
  decide

/-- C7 (amended): `validate_non_patch` returns true iff `start_date` and
`end_date` are present, `start_time` is present iff `end_time` is, and —
when a recurrence block is present — its `rrule`, `exdates` and `rdates`
are all present. -/
theorem c7_validate_characterization (e : EventPlain) :
    validate_non_patch e = true ↔
      (e.start_date.isSome = true ∧ e.end_date.isSome = true ∧
       (e.start_time.isSome = true ↔ e.end_time.isSome = true) ∧
       ∀ r, e.recurrence = some r →
         (r.rrule.isSome = true ∧ r.exdates.isSome = true ∧ r.rdates.isSome = true)) := by
  obtain ⟨id, pid, sd, st, ed, et, rec, lm⟩ := e
  unfold validate_non_patch
  cases rec with
  | none => cases sd <;> cases ed <;> cases st <;> cases et <;> simp
  | some r =>
    obtain ⟨rr, ex, rd⟩ := r
    cases sd <;> cases ed <;> cases st <;> cases et <;>
      cases rr <;> cases ex <;> cases rd <;> simp

/-- C8: the dates emitted by consecutive successful `next()` calls are
strictly ascending (for the data-model's `interval ≥ 1`): each call emits
a date no earlier than the entry `current_date` and leaves
`current_date` strictly beyond the emitted date. -/
theorem c8_emissions_strictly_ascending (f g : Nat) (s s' s'' : RRuleInstances)
    (d d' : Date) (hint : 1 ≤ s.rule.interval)
    (h1 : next_fuel f s = some (.emitted d s'))
    (h2 : next_fuel g s' = some (.emitted d' s'')) :
    dateLt d d' := by
  obtain ⟨_, hrule, hcur⟩ := next_fuel_emitted_shape f s d s' hint h1
  have hint2 : 1 ≤ s'.rule.interval := by rw [hrule]; exact hint
  obtain ⟨hle2, _, _⟩ := next_fuel_emitted_shape g s' d' s'' hint2 h2
  have hlt : dateLt d s'.current_date := by
    rw [hcur]; exact dateLt_addDays d s.rule.interval hint
  exact dateLt_of_lt_of_le hlt hle2

theorem c8_emissions_strictly_ascending_witness :
    dateLt ⟨2020, 1, 1⟩ ⟨2020, 1, 2⟩ :=
  c8_emissions_strictly_ascending 1 1 c8_instances c8_after c8_after2
    ⟨2020, 1, 1⟩ ⟨2020, 1, 2⟩ (by decide) (by decide) (by decide)

/-- C9 (counterexample): `from_date_and_duration` with a negative duration
produces a span with `end < start`; no constructor enforces the §3
invariant. -/
theorem c9_negative_duration_breaks_invariant :
    ¬ spanStartLeEnd
      (EventSpan.from_date_and_duration ⟨2020, 1, 1⟩ (Duration.days (-1))) := by
  decide

/-- C10: serializing any typed event with `into_plain` yields a plain
event that passes `validate_non_patch`; its `id` and `last_modified` are
present, its times are present together or absent together, and its
recurrence block is complete for recurring events and absent for single
events. -/
theorem c10_into_plain_validates (e : Event) :
    validate_non_patch e.into_plain = true ∧
    e.into_plain.id.isSome = true ∧
    e.into_plain.last_modified.isSome = true ∧
    (e.into_plain.start_time.isSome = true ↔ e.into_plain.end_time.isSome = true) ∧
    plainRecurrenceOk e := by
  cases e with
  | recurring er =>
    cases hsp : er.span <;>
      simp [Event.into_plain, EventRecurring.into_plain, validate_non_patch,
        plainRecurrenceOk, EventSpan.get_start_time, EventSpan.get_end_time,
        EventSpan.get_date_time_span, hsp]
  | single es =>
    cases hsp : es.span <;>
      simp [Event.into_plain, EventSingle.into_plain, validate_non_patch,
        plainRecurrenceOk, EventSpan.get_start_time, EventSpan.get_end_time,
        EventSpan.get_date_time_span, hsp]

/-- C4 (counterexample): for the instantiated rule `FREQ=DAILY` with
`BYMONTH` listing all twelve months (anchored at 2020-01-01, limit
indefinite), `next()` never returns: there is no safety horizon, the
indefinite limit never breaks, and the inverted `check_by_month` rejects
every date, so the loop runs forever — no fuel bound suffices. -/
theorem c4_no_safety_horizon : ¬ ∃ f, (next_fuel f c4_instances).isSome := by
  rintro ⟨f, hf⟩
  rw [c4_never_returns f c4_instances rfl (by decide)] at hf
  simp at hf

/-- C4 (amended): with an `Until` limit, `next()` does return (`Some` or
`None`) after finitely many loop iterations — once the candidate passes
the limit date the `break` fires — and with a `Count` limit whose count
has already been reached it returns immediately; but there is no safety
horizon, so for an indefinite rule whose filters never match again
`next()` need not terminate. -/
theorem c4_limits_terminate (s : RRuleInstances)
    (hint : 1 ≤ s.rule.interval) (hsane : s.current_date.Sane) :
    (∀ U, s.rule.limit = .date U → ∃ f, (next_fuel f s).isSome) ∧
    (∀ N, s.rule.limit = .count N → N ≤ s.instance_count →
      (next_fuel 1 s).isSome) := by
  constructor
  · intro U hU
    exact next_fuel_until_terminates
      (372 * U.year + 404 - dateMeasure s.current_date).toNat s U hU hint hsane le_rfl
  · intro N hN hle
    apply next_fuel_one_isSome_of_limit
    unfold limitReached
    rw [hN]
    simpa using hle

/-- C4 witness: the amended theorem applied to the concrete state of a
`FREQ=WEEKLY;UNTIL=20200115` rule anchored at 2020-01-01 (scenario S2). -/
theorem c4_limits_terminate_witness :
    ∃ f, (next_fuel f (RRuleInstances.new (RecurrenceRuleInstance.new
      { baseRule with frequency := .weekly, limit := .date ⟨2020, 1, 15⟩ }
      ⟨2020, 1, 1⟩))).isSome :=
  (c4_limits_terminate _ (by decide) (by decide)).1 ⟨2020, 1, 15⟩ (by decide)

/-- C9 (amended): the constructed spans satisfy `start ≤ end` exactly
under the corresponding side conditions, which no constructor checks:
a nonnegative whole-day duration for `from_date_and_duration`, a
nonnegative duration for `from_date_time_and_duration`, and ordered
endpoint fields for the plain → typed conversion. -/
theorem c9_constructors_ordered_under_side_conditions :
    (∀ (d : Date) (dur : Duration), 0 ≤ dur.num_days →
      spanStartLeEnd (EventSpan.from_date_and_duration d dur)) ∧
    (∀ (dt : DateTime) (dur : Duration), 0 ≤ dur.secs →
      spanStartLeEnd (EventSpan.from_date_time_and_duration dt dur)) ∧
    (∀ (p : EventPlain) (ev : Event), eventTryFromPlain p = .ok ev →
      orderedPlain p → spanStartLeEnd (eventSpanOf ev)) := by
  refine ⟨?_, ?_, ?_⟩
  · intro d dur h
    exact dateLe_addDays d dur.num_days h
  · intro dt dur h
    unfold EventSpan.from_date_time_and_duration spanStartLeEnd dtAddDuration
    have htot : 0 ≤ (dt.time.secs : Int) + dur.secs := by positivity
    rcases Int.lt_or_le ((dt.time.secs : Int) + dur.secs) 86400 with hsmall | hbig
    · have hfd : ((dt.time.secs : Int) + dur.secs).fdiv 86400 = 0 := by
        rw [Int.fdiv_eq_ediv _ (by omega)]
        omega
      have hem : ((dt.time.secs : Int) + dur.secs).emod 86400 =
          (dt.time.secs : Int) + dur.secs := Int.emod_eq_of_lt htot hsmall
      apply dtLe_of_date_eq_time_le
      · dsimp only
        rw [hfd]
        simp [addDays, addDaysNat]
      · dsimp only
        rw [hem]
        omega
    · have hfd : 1 ≤ ((dt.time.secs : Int) + dur.secs).fdiv 86400 := by
        rw [Int.fdiv_eq_ediv _ (by omega)]
        omega
      exact Or.inl (Or.inl (dateLt_addDays _ _ hfd))
  · intro p ev hok hord
    cases psd : p.start_date with
    | none => rw [eventTryFromPlain, psd] at hok; cases p.end_date <;> simp at hok
    | some sd =>
    cases ped : p.end_date with
    | none => rw [eventTryFromPlain, psd, ped] at hok; simp at hok
    | some ed =>
    rw [eventTryFromPlain, psd, ped] at hok
    dsimp only at hok
    cases pst : p.start_time with
    | none =>
      cases pet : p.end_time with
      | some et => rw [pst, pet] at hok; simp at hok
      | none =>
        rw [pst, pet] at hok
        simp only [Option.isSome_none, bne_self_eq_false, Bool.false_eq_true,
          if_false, ite_false] at hok
        have hspan : dateLe sd ed := by
          unfold orderedPlain at hord
          rw [psd, ped, pst, pet] at hord
          exact hord
        cases pid : p.id with
        | none => rw [pid] at hok; simp at hok
        | some id =>
        rw [pid] at hok
        cases plm : p.last_modified with
        | none => rw [plm] at hok; simp at hok
        | some lm =>
        rw [plm] at hok
        dsimp only at hok
        cases prec : p.recurrence with
        | some rp =>
          rw [prec] at hok
          dsimp only at hok
          cases hrec : eventRecurrenceTryFrom rp with
          | error e => rw [hrec] at hok; simp [Except.map] at hok
          | ok r =>
            rw [hrec] at hok
            simp only [Except.map, Except.ok.injEq] at hok
            subst hok
            exact hspan
        | none =>
          rw [prec] at hok
          dsimp only at hok
          simp only [Except.ok.injEq] at hok
          subst hok
          exact hspan
    | some st =>
      cases pet : p.end_time with
      | none => rw [pst, pet] at hok; simp at hok
      | some et =>
        rw [pst, pet] at hok
        simp only [Option.isSome_some, bne_self_eq_false, Bool.false_eq_true,
          if_false, ite_false] at hok
        have hspan : dtLe ⟨sd, st⟩ ⟨ed, et⟩ := by
          unfold orderedPlain at hord
          rw [psd, ped, pst, pet] at hord
          exact hord
        cases pid : p.id with
        | none => rw [pid] at hok; simp at hok
        | some id =>
        rw [pid] at hok
        cases plm : p.last_modified with
        | none => rw [plm] at hok; simp at hok
        | some lm =>
        rw [plm] at hok
        dsimp only at hok
        cases prec : p.recurrence with
        | some rp =>
          rw [prec] at hok
          dsimp only at hok
          cases hrec : eventRecurrenceTryFrom rp with
          | error e => rw [hrec] at hok; simp [Except.map] at hok
          | ok r =>
            rw [hrec] at hok
            simp only [Except.map, Except.ok.injEq] at hok
            subst hok
            exact hspan
        | none =>
          rw [prec] at hok
          dsimp only at hok
          simp only [Except.ok.injEq] at hok
          subst hok
          exact hspan

/-- C9 witness: the amended theorem applied to concrete inputs — a
two-day span from 2020-01-01 and a plain event with ordered dates. -/
theorem c9_constructors_ordered_witness :
    spanStartLeEnd (EventSpan.from_date_and_duration ⟨2020, 1, 1⟩ (Duration.days 2)) :=
  c9_constructors_ordered_under_side_conditions.1 ⟨2020, 1, 1⟩ (Duration.days 2) (by decide)

/-! ## Splitting is inverse to joining -/

theorem splitOnChar_no_sep {c : Char} :
    ∀ {p : Str}, c ∉ p → splitOnChar c p = [p] := by
  intro p
  induction p with
  | nil => intro _; rfl
  | cons x xs ih =>
    intro h
    have hx : x ≠ c := fun hc => h (hc ▸ List.mem_cons_self x xs)
    have hxs : c ∉ xs := fun hc => h (List.mem_cons_of_mem x hc)
    rw [splitOnChar, if_neg hx, ih hxs]

theorem splitOnChar_append {c : Char} :
    ∀ {p : Str} (rest : Str), c ∉ p →
    splitOnChar c (p ++ c :: rest) = p :: splitOnChar c rest := by
  intro p
  induction p with
  | nil =>
    intro rest _
    rw [List.nil_append, splitOnChar, if_pos rfl]
  | cons x xs ih =>
    intro rest h
    have hx : x ≠ c := fun hc => h (hc ▸ List.mem_cons_self x xs)
    have hxs : c ∉ xs := fun hc => h (List.mem_cons_of_mem x hc)
    rw [List.cons_append, splitOnChar, if_neg hx, ih rest hxs]

theorem splitOnChar_joinSep {c : Char} :
    ∀ (ps : List Str), ps ≠ [] → (∀ p ∈ ps, c ∉ p) →
    splitOnChar c (joinSep [c] ps) = ps := by
  intro ps
  induction ps with
  | nil => intro h _; exact absurd rfl h
  | cons p qs ih =>
    intro _ hmem
    cases qs with
    | nil => exact splitOnChar_no_sep (hmem p (List.mem_cons_self p []))
    | cons q rs =>
      have hjoin : joinSep [c] (p :: q :: rs) = p ++ c :: joinSep [c] (q :: rs) := by
        show (p ++ [c]) ++ joinSep [c] (q :: rs) = _
        simp
      rw [hjoin, splitOnChar_append _ (hmem p (List.mem_cons_self p _)),
        ih (by simp) (fun x hx => hmem x (List.mem_cons_of_mem p hx))]

theorem mem_joinSep {c' : Char} {sep : Str} :
    ∀ {ps : List Str}, c' ∈ joinSep sep ps → c' ∈ sep ∨ ∃ p ∈ ps, c' ∈ p := by
  intro ps
  induction ps with
  | nil => intro h; simp [joinSep] at h
  | cons p qs ih =>
    cases qs with
    | nil =>
      intro h
      exact Or.inr ⟨p, List.mem_cons_self p [], h⟩
    | cons q rs =>
      intro h
      rw [show joinSep sep (p :: q :: rs) = p ++ sep ++ joinSep sep (q :: rs) from rfl] at h
      rcases List.mem_append.mp h with h2 | h2
      · rcases List.mem_append.mp h2 with h3 | h3
        · exact Or.inr ⟨p, List.mem_cons_self p _, h3⟩
        · exact Or.inl h3
      · rcases ih h2 with h3 | ⟨x, hx, hcx⟩
        · exact Or.inl h3
        · exact Or.inr ⟨x, List.mem_cons_of_mem p hx, hcx⟩

/-! ## Decimal printing and parsing are inverse -/

theorem digitChar_facts {d : Nat} (h : d < 10) :
    isDigitChar (digitChar d) = true ∧ (digitChar d).toNat - 48 = d ∧
    digitChar d ≠ ';' ∧ digitChar d ≠ '=' ∧ digitChar d ≠ ',' ∧ digitChar d ≠ '-' := by
  interval_cases d <;> exact ⟨by decide, by decide, by decide, by decide, by decide, by decide⟩

theorem natToChars_ne_nil (n : Nat) : natToChars n ≠ [] := by
  unfold natToChars
  split_ifs with h
  · simp
  · simp [Nat.digits_ne_nil_iff_ne_zero.mpr h]

theorem mem_natToChars {c : Char} {n : Nat} (hc : c ∈ natToChars n) :
    ∃ d, d < 10 ∧ c = digitChar d := by
  unfold natToChars at hc
  split_ifs at hc with h
  · refine ⟨0, by omega, ?_⟩
    simp at hc
    rw [hc]; rfl
  · obtain ⟨d, hd, rfl⟩ := List.mem_map.mp hc
    exact ⟨d, Nat.digits_lt_base (by omega) (List.mem_reverse.mp hd), rfl⟩

theorem natToChars_all_digits {c : Char} {n : Nat} (hc : c ∈ natToChars n) :
    isDigitChar c = true := by
  obtain ⟨d, hd, rfl⟩ := mem_natToChars hc
  exact (digitChar_facts hd).1

theorem foldl_digit_step :
    ∀ (ds : List Nat) (a : Nat), (∀ d ∈ ds, d < 10) →
    ((ds.map digitChar).foldl (fun a c => 10 * a + (c.toNat - 48)) a) =
      a * 10 ^ ds.length + Nat.ofDigits 10 ds.reverse := by
  intro ds
  induction ds with
  | nil => intro a _; simp [Nat.ofDigits]
  | cons d ds ih =>
    intro a h
    have hd : d < 10 := h d (List.mem_cons_self d ds)
    have hstep : (10 * a + ((digitChar d).toNat - 48)) = 10 * a + d := by
      rw [(digitChar_facts hd).2.1]
    rw [List.map_cons, List.foldl_cons, hstep,
      ih (10 * a + d) (fun x hx => h x (List.mem_cons_of_mem d hx))]
    rw [List.reverse_cons, Nat.ofDigits_append]
    simp [Nat.ofDigits_singleton]
    ring

theorem foldl_natToChars (n : Nat) :
    (natToChars n).foldl (fun a c => 10 * a + (c.toNat - 48)) 0 = n := by
  unfold natToChars
  split_ifs with h
  · simp [h]
  · have hds : ∀ d ∈ (Nat.digits 10 n).reverse, d < 10 := fun d hd =>
      Nat.digits_lt_base (by omega) (List.mem_reverse.mp hd)
    rw [foldl_digit_step _ 0 hds]
    simp [Nat.ofDigits_digits]

theorem parseNatChars_natToChars (n : Nat) :
    parseNatChars (natToChars n) = some n := by
  unfold parseNatChars
  rw [if_pos ⟨natToChars_ne_nil n, List.all_eq_true.mpr (fun c hc => natToChars_all_digits hc)⟩,
    foldl_natToChars]

theorem foldl_step_zeros (k : Nat) :
    (List.replicate k '0').foldl (fun a c => 10 * a + (c.toNat - 48)) 0 = 0 := by
  induction k with
  | zero => rfl
  | succ m ih => rw [List.replicate_succ, List.foldl_cons]; simpa using ih

theorem parseNatChars_padZeros (w : Nat) (n : Nat) :
    parseNatChars (padZeros w (natToChars n)) = some n := by
  unfold parseNatChars padZeros
  rw [if_pos, List.foldl_append, foldl_step_zeros, foldl_natToChars]
  constructor
  · simp [natToChars_ne_nil n]
  · refine List.all_eq_true.mpr (fun c hc => ?_)
    rcases List.mem_append.mp hc with h | h
    · rw [List.eq_of_mem_replicate h]; decide
    · exact natToChars_all_digits h

theorem parseNatChars_lt {cs : Str} {n : Nat} (h : parseNatChars cs = some n) :
    n < 10 ^ cs.length := by
  unfold parseNatChars at h
  split_ifs at h with hcond
  · obtain ⟨hne, hdig⟩ := hcond
    simp only [Option.some.injEq] at h
    subst h
    have key : ∀ (cs : Str) (a : Nat), (∀ c ∈ cs, isDigitChar c = true) →
        cs.foldl (fun a c => 10 * a + (c.toNat - 48)) a < (a + 1) * 10 ^ cs.length := by
      intro cs
      induction cs with
      | nil => intro a _; simp
      | cons c cs ih =>
        intro a hdig2
        have hc : isDigitChar c = true := hdig2 c (List.mem_cons_self c cs)
        have hcv : c.toNat - 48 ≤ 9 := by
          unfold isDigitChar at hc
          have := of_decide_eq_true hc
          omega
        calc List.foldl (fun a c => 10 * a + (c.toNat - 48)) (10 * a + (c.toNat - 48)) cs
            < (10 * a + (c.toNat - 48) + 1) * 10 ^ cs.length :=
              ih _ (fun x hx => hdig2 x (List.mem_cons_of_mem c hx))
          _ ≤ ((a + 1) * 10) * 10 ^ cs.length := by
              have : 10 * a + (c.toNat - 48) + 1 ≤ (a + 1) * 10 := by omega
              exact Nat.mul_le_mul_right _ this
          _ = (a + 1) * 10 ^ (cs.length + 1) := by ring
    have := key cs 0 (fun c hc => List.all_eq_true.mp hdig c hc)
    simpa using this

theorem natToChars_length_le {n k : Nat} (h1 : 1 ≤ k) (h2 : n < 10 ^ k) :
    (natToChars n).length ≤ k := by
  unfold natToChars
  split_ifs with h
  · simpa using h1
  · rw [List.length_map, List.length_reverse]
    by_contra hlen
    push_neg at hlen
    have hle := Nat.base_pow_length_digits_le 10 n (by omega) h
    have : 10 ^ (k + 1) ≤ 10 ^ (Nat.digits 10 n).length :=
      Nat.pow_le_pow_right (by omega) hlen
    have : 10 ^ (k + 1) ≤ 10 * n := le_trans this hle
    have : 10 ^ k ≤ n := by
      rw [pow_succ] at this
      omega
    omega

theorem padZeros_length {cs : Str} {w : Nat} (h : cs.length ≤ w) :
    (padZeros w cs).length = w := by
  unfold padZeros
  simp
  omega

theorem intToChars_head_digit (x : Int) (h : 0 ≤ x) :
    intToChars x = natToChars x.toNat := by
  unfold intToChars
  rw [if_neg (by omega)]

theorem parseIntChars_intToChars (x : Int) : parseIntChars (intToChars x) = some x := by
  by_cases h : x < 0
  · have hneg : intToChars x = '-' :: natToChars (-x).toNat := by
      unfold intToChars
      rw [if_pos h]
    rw [hneg]
    unfold parseIntChars
    simp [parseNatChars_natToChars]
    omega
  · push_neg at h
    have hhead : ¬ (natToChars x.toNat).head? = some '-' := by
      obtain ⟨c, cs, hcs⟩ := List.exists_cons_of_ne_nil (natToChars_ne_nil x.toNat)
      obtain ⟨d, hd, hc⟩ := mem_natToChars (n := x.toNat)
        (by rw [hcs]; exact List.mem_cons_self c cs)
      rw [hcs, hc]
      simp only [List.head?_cons, Option.some.injEq]
      exact (digitChar_facts hd).2.2.2.2.2
    rw [intToChars_head_digit x h]
    unfold parseIntChars
    rw [if_neg hhead, parseNatChars_natToChars]
    simp [Int.toNat_of_nonneg h]

/-! ## Monadic plumbing for the `Except` parser -/

theorem exc_bind_ok {ε α β : Type} (a : α) (f : α → Except ε β) :
    (Except.ok a >>= f) = f a := rfl

theorem exc_bind_ok_inv {ε α β : Type} {e : Except ε α} {f : α → Except ε β} {b : β}
    (h : (e >>= f) = Except.ok b) : ∃ a, e = Except.ok a ∧ f a = Except.ok b := by
  cases e with
  | ok a => exact ⟨a, rfl, h⟩
  | error err =>
    exact absurd h (by simp [Bind.bind, Except.bind])

theorem exc_map_ok_inv {ε α β : Type} {e : Except ε α} {f : α → β} {b : β}
    (h : Except.map f e = Except.ok b) : ∃ a, e = Except.ok a ∧ f a = b := by
  cases e with
  | ok a =>
    refine ⟨a, rfl, ?_⟩
    simpa [Except.map] using h
  | error err => exact absurd h (by simp [Except.map])

theorem mapM_map_ok {ε α β : Type} {f : β → Except ε α} {g : α → β} :
    ∀ (xs : List α), (∀ x ∈ xs, f (g x) = Except.ok x) →
    (xs.map g).mapM f = Except.ok xs := by
  intro xs
  induction xs with
  | nil => intro _; rfl
  | cons x xs ih =>
    intro h
    rw [List.map_cons, List.mapM_cons, h x (List.mem_cons_self x xs),
      ih (fun y hy => h y (List.mem_cons_of_mem x hy))]
    rfl

theorem mapM_ok_length {ε α β : Type} {f : α → Except ε β} :
    ∀ {xs : List α} {ys : List β}, xs.mapM f = Except.ok ys → ys.length = xs.length := by
  intro xs
  induction xs with
  | nil =>
    intro ys h
    simp only [List.mapM_nil] at h
    cases h
    rfl
  | cons x xs ih =>
    intro ys h
    rw [List.mapM_cons] at h
    obtain ⟨b, _, h2⟩ := exc_bind_ok_inv h
    obtain ⟨bs, hbs, h3⟩ := exc_bind_ok_inv h2
    cases h3
    simpa using ih hbs

theorem mapM_ok_mem {ε α β : Type} {f : α → Except ε β} :
    ∀ {xs : List α} {ys : List β}, xs.mapM f = Except.ok ys →
    ∀ y ∈ ys, ∃ x ∈ xs, f x = Except.ok y := by
  intro xs
  induction xs with
  | nil =>
    intro ys h
    simp only [List.mapM_nil] at h
    cases h
    intro y hy
    simp at hy
  | cons x xs ih =>
    intro ys h
    rw [List.mapM_cons] at h
    obtain ⟨b, hb, h2⟩ := exc_bind_ok_inv h
    obtain ⟨bs, hbs, h3⟩ := exc_bind_ok_inv h2
    cases h3
    intro y hy
    rcases List.mem_cons.mp hy with rfl | hy2
    · exact ⟨x, List.mem_cons_self x xs, hb⟩
    · obtain ⟨x2, hx2, hfx2⟩ := ih hbs y hy2
      exact ⟨x2, List.mem_cons_of_mem x hx2, hfx2⟩

theorem splitOnChar_ne_nil (c : Char) : ∀ (s : Str), splitOnChar c s ≠ [] := by
  intro s
  induction s with
  | nil => simp [splitOnChar]
  | cons x xs ih =>
    rw [splitOnChar]
    split_ifs
    · simp
    · cases h : splitOnChar c xs <;> simp

/-! ## Segment computations -/

theorem filterMap_id_cons {α : Type} (o : Option α) (os : List (Option α)) :
    List.filterMap id (o :: os) = o.toList ++ List.filterMap id os := by
  cases o <;> simp

theorem filter_segOf_self (key : Str) (v : Option Str) :
    (segOf key v).filter (fun kv => decide (kv.1 = key)) = segOf key v := by
  cases v <;> simp [segOf]

theorem filter_segOf_other {k key : Str} (h : k ≠ key) (v : Option Str) :
    (segOf k v).filter (fun kv => decide (kv.1 = key)) = [] := by
  cases v <;> simp [segOf, h]

theorem getOne_single {kvs : List (Str × Str)} {key : Str} {v : Option Str}
    (h : kvs.filter (fun kv => decide (kv.1 = key)) = segOf key v) :
    getOne kvs key = .ok v := by
  unfold getOne
  rw [h]
  cases v <;> rfl

/-! ## Characters of printed values -/

theorem valueChar_of_natToChars {c : Char} {n : Nat} (h : c ∈ natToChars n) :
    c ≠ ';' ∧ c ≠ '=' ∧ c ≠ ',' := by
  obtain ⟨d, hd, rfl⟩ := mem_natToChars h
  exact ⟨(digitChar_facts hd).2.2.1, (digitChar_facts hd).2.2.2.1,
    (digitChar_facts hd).2.2.2.2.1⟩

theorem valueChar_of_intToChars {c : Char} {x : Int} (h : c ∈ intToChars x) :
    c ≠ ';' ∧ c ≠ '=' ∧ c ≠ ',' := by
  unfold intToChars at h
  split_ifs at h
  · rcases List.mem_cons.mp h with rfl | h2
    · exact ⟨by decide, by decide, by decide⟩
    · exact valueChar_of_natToChars h2
  · exact valueChar_of_natToChars h

theorem valueChar_of_vecToStr {c : Char} {xs : List Int} (h : c ∈ vecToStr xs) :
    c ≠ ';' ∧ c ≠ '=' := by
  unfold vecToStr at h
  rcases mem_joinSep h with h2 | ⟨p, hp, hcp⟩
  · simp at h2
    subst h2
    exact ⟨by decide, by decide⟩
  · obtain ⟨x, _, rfl⟩ := List.mem_map.mp hp
    exact ⟨(valueChar_of_intToChars hcp).1, (valueChar_of_intToChars hcp).2.1⟩

theorem valueChar_of_freqStr (f : RecurrenceFreq) :
    ∀ c ∈ freqStr f, c ≠ ';' ∧ c ≠ '=' := by
  cases f <;> decide

theorem valueChar_of_weekdayCode (w : Weekday) :
    ∀ c ∈ weekdayCode w, c ≠ ';' ∧ c ≠ '=' ∧ c ≠ ',' := by
  cases w <;> decide

theorem valueChar_of_byDayVal {c : Char} {xs : List Weekday}
    (h : c ∈ joinSep [','] (xs.map weekdayCode)) : c ≠ ';' ∧ c ≠ '=' := by
  rcases mem_joinSep h with h2 | ⟨p, hp, hcp⟩
  · simp at h2
    subst h2
    exact ⟨by decide, by decide⟩
  · obtain ⟨w, _, rfl⟩ := List.mem_map.mp hp
    exact ⟨(valueChar_of_weekdayCode w c hcp).1, (valueChar_of_weekdayCode w c hcp).2.1⟩

theorem valueChar_of_byMonthVal {c : Char} {xs : List Month}
    (h : c ∈ joinSep [','] (xs.map (fun m => natToChars m.numberFromMonth))) :
    c ≠ ';' ∧ c ≠ '=' := by
  rcases mem_joinSep h with h2 | ⟨p, hp, hcp⟩
  · simp at h2
    subst h2
    exact ⟨by decide, by decide⟩
  · obtain ⟨m, _, rfl⟩ := List.mem_map.mp hp
    exact ⟨(valueChar_of_natToChars hcp).1, (valueChar_of_natToChars hcp).2.1⟩

theorem mem_padZeros {c : Char} {w : Nat} {cs : Str} (h : c ∈ padZeros w cs) :
    c = '0' ∨ c ∈ cs := by
  unfold padZeros at h
  rcases List.mem_append.mp h with h2 | h2
  · exact Or.inl (List.eq_of_mem_replicate h2)
  · exact Or.inr h2

theorem valueChar_of_dateYMD {c : Char} {d : Date} (h : c ∈ dateYMD d) :
    c ≠ ';' ∧ c ≠ '=' := by
  unfold dateYMD at h
  have hdigit : ∀ {n : Nat}, c ∈ natToChars n → c ≠ ';' ∧ c ≠ '=' := fun hc =>
    ⟨(valueChar_of_natToChars hc).1, (valueChar_of_natToChars hc).2.1⟩
  have hpad : ∀ {w : Nat} {n : Nat}, c ∈ padZeros w (natToChars n) → c ≠ ';' ∧ c ≠ '=' := by
    intro w n hc
    rcases mem_padZeros hc with rfl | hc2
    · exact ⟨by decide, by decide⟩
    · exact hdigit hc2
  rcases List.mem_append.mp h with h1 | h1
  · rcases List.mem_append.mp h1 with h2 | h2
    · split_ifs at h2
      · rcases List.mem_cons.mp h2 with rfl | h3
        · exact ⟨by decide, by decide⟩
        · exact hpad h3
      · rcases List.mem_cons.mp h2 with rfl | h3
        · exact ⟨by decide, by decide⟩
        · exact hdigit h3
      · exact hpad h2
    · exact hpad h2
  · exact hpad h1

/-! ## Round trips of the small value grammars -/

theorem parseFreqV_freqStr (f : RecurrenceFreq) : parseFreqV (freqStr f) = .ok f := by
  cases f <;> rfl

theorem monthFromNumber_numberFromMonth (m : Month) :
    monthFromNumber m.numberFromMonth = some m := by
  cases m <;> rfl

theorem weekdayFromCode_weekdayCode (w : Weekday) :
    weekdayFromCode (weekdayCode w) = some w := by
  cases w <;> rfl

/-! ## Round trips of the list and date values -/

theorem parseIntListV_print (key : Str) (bound : Option Int) {xs : List Int}
    (hne : xs ≠ [])
    (hrange : ∀ x ∈ xs, x ≠ 0 ∧
      (match bound with | some b => -b ≤ x ∧ x ≤ b | none => True)) :
    parseIntListV key bound (vecToStr xs) = .ok xs := by
  unfold parseIntListV vecToStr
  rw [splitOnChar_joinSep (xs.map intToChars) (by simpa using hne)
    (fun p hp hc => by
      obtain ⟨x, _, rfl⟩ := List.mem_map.mp hp
      exact (valueChar_of_intToChars hc).2.2 rfl)]
  apply mapM_map_ok
  intro x hx
  rw [parseIntChars_intToChars]
  dsimp only
  obtain ⟨hx0, hxb⟩ := hrange x hx
  rw [if_neg hx0]
  cases bound with
  | none => rfl
  | some b =>
    simp only at hxb
    dsimp only
    rw [if_pos hxb]

theorem parseMonthListV_print {xs : List Month} (hne : xs ≠ []) :
    parseMonthListV (joinSep [','] (xs.map (fun m => natToChars m.numberFromMonth))) =
      .ok xs := by
  unfold parseMonthListV
  rw [splitOnChar_joinSep (xs.map (fun m => natToChars m.numberFromMonth))
    (by simpa using hne)
    (fun p hp hc => by
      obtain ⟨m, _, rfl⟩ := List.mem_map.mp hp
      exact (valueChar_of_natToChars hc).2.2 rfl)]
  apply mapM_map_ok
  intro m _
  rw [parseNatChars_natToChars]
  dsimp only
  rw [monthFromNumber_numberFromMonth]

theorem parseWeekdayListV_print {xs : List Weekday} (hne : xs ≠ []) :
    parseWeekdayListV (joinSep [','] (xs.map weekdayCode)) = .ok xs := by
  unfold parseWeekdayListV
  rw [splitOnChar_joinSep (xs.map weekdayCode) (by simpa using hne)
    (fun p hp hc => by
      obtain ⟨w, _, rfl⟩ := List.mem_map.mp hp
      exact (valueChar_of_weekdayCode w _ hc).2.2 rfl)]
  apply mapM_map_ok
  intro w _
  rw [weekdayFromCode_weekdayCode]

theorem all_digits_padZeros {w n : Nat} :
    ∀ c ∈ padZeros w (natToChars n), isDigitChar c = true := by
  intro c hc
  rcases mem_padZeros hc with rfl | hc2
  · decide
  · exact natToChars_all_digits hc2

theorem parseUntilV_dateYMD {d : Date} (hy0 : 0 ≤ d.year) (hy9 : d.year ≤ 9999)
    (hm1 : 1 ≤ d.month) (hm12 : d.month ≤ 12) (hd1 : 1 ≤ d.day)
    (hdm : d.day ≤ daysInMonth d.year d.month) :
    parseUntilV (dateYMD d) = .ok d := by
  obtain ⟨y, m, day⟩ := d
  dsimp only at hy0 hy9 hm1 hm12 hd1 hdm
  have hyd : dateYMD ⟨y, m, day⟩ =
      padZeros 4 (natToChars y.toNat) ++ padZeros 2 (natToChars m) ++
        padZeros 2 (natToChars day) := by
    unfold dateYMD
    rw [if_neg (by dsimp only; omega), if_neg (by dsimp only; omega)]
  have hlen4 : (padZeros 4 (natToChars y.toNat)).length = 4 :=
    padZeros_length (natToChars_length_le (by omega)
      (by rw [show (10 : Nat) ^ 4 = 10000 from rfl]; omega))
  have hlen2m : (padZeros 2 (natToChars m)).length = 2 :=
    padZeros_length (natToChars_length_le (by omega)
      (by rw [show (10 : Nat) ^ 2 = 100 from rfl]; omega))
  have hday100 : day < 100 := by
    have := daysInMonth_le_31 y m
    omega
  have hlen2d : (padZeros 2 (natToChars day)).length = 2 :=
    padZeros_length (natToChars_length_le (by omega)
      (by rw [show (10 : Nat) ^ 2 = 100 from rfl]; omega))
  unfold parseUntilV
  rw [hyd]
  have htake4 : (padZeros 4 (natToChars y.toNat) ++ padZeros 2 (natToChars m) ++
      padZeros 2 (natToChars day)).take 4 = padZeros 4 (natToChars y.toNat) := by
    rw [List.append_assoc, List.take_left' hlen4]
  have hdrop4 : (padZeros 4 (natToChars y.toNat) ++ padZeros 2 (natToChars m) ++
      padZeros 2 (natToChars day)).drop 4 =
      padZeros 2 (natToChars m) ++ padZeros 2 (natToChars day) := by
    rw [List.append_assoc, List.drop_left' hlen4]
  have htake2 : ((padZeros 4 (natToChars y.toNat) ++ padZeros 2 (natToChars m) ++
      padZeros 2 (natToChars day)).drop 4).take 2 = padZeros 2 (natToChars m) := by
    rw [hdrop4, List.take_left' hlen2m]
  have hdrop6 : (padZeros 4 (natToChars y.toNat) ++ padZeros 2 (natToChars m) ++
      padZeros 2 (natToChars day)).drop 6 = padZeros 2 (natToChars day) := by
    rw [show (6 : Nat) = 4 + 2 from rfl, ← List.drop_drop, hdrop4,
      List.drop_left' hlen2m]
  have hcond : (padZeros 4 (natToChars y.toNat) ++ padZeros 2 (natToChars m) ++
      padZeros 2 (natToChars day)).length = 8 ∧
      (padZeros 4 (natToChars y.toNat) ++ padZeros 2 (natToChars m) ++
      padZeros 2 (natToChars day)).all isDigitChar := by
    constructor
    · simp [hlen4, hlen2m, hlen2d]
    · refine List.all_eq_true.mpr (fun c hc => ?_)
      rcases List.mem_append.mp hc with h1 | h1
      · rcases List.mem_append.mp h1 with h2 | h2
        · exact all_digits_padZeros c h2
        · exact all_digits_padZeros c h2
      · exact all_digits_padZeros c h1
  rw [if_pos hcond, htake4, htake2, hdrop6, parseNatChars_padZeros,
    parseNatChars_padZeros, parseNatChars_padZeros]
  dsimp only
  have hcond2 : 1 ≤ m ∧ m ≤ 12 ∧ 1 ≤ day ∧ day ≤ daysInMonth ((y.toNat : Nat) : Int) m := by
    refine ⟨hm1, hm12, hd1, ?_⟩
    rw [Int.toNat_of_nonneg hy0]
    exact hdm
  rw [if_pos hcond2]
  simp [Int.toNat_of_nonneg hy0]

/-! ## The printed text as segments -/

theorem interval_part_toList (r : RecurrenceRule) :
    (if r.interval > 1 then some (("INTERVAL=".data) ++ intToChars r.interval)
     else none).toList = pSeg ("INTERVAL".data) (intervalValOpt r) := by
  unfold intervalValOpt
  split_ifs <;> rfl

theorem yd_part_toList (r : RecurrenceRule) :
    (r.by_year_day.map (fun x => ("BYYEARDAY=".data) ++ vecToStr x)).toList =
      pSeg ("BYYEARDAY".data) (r.by_year_day.map vecToStr) := by
  cases r.by_year_day <;> rfl

theorem wn_part_toList (r : RecurrenceRule) :
    (r.by_week_no.map (fun x => ("BYWEEKNO=".data) ++ vecToStr x)).toList =
      pSeg ("BYWEEKNO".data) (r.by_week_no.map vecToStr) := by
  cases r.by_week_no <;> rfl

theorem md_part_toList (r : RecurrenceRule) :
    (r.by_month_day.map (fun x => ("BYMONTHDAY=".data) ++ vecToStr x)).toList =
      pSeg ("BYMONTHDAY".data) (r.by_month_day.map vecToStr) := by
  cases r.by_month_day <;> rfl

theorem sp_part_toList (r : RecurrenceRule) :
    (r.by_set_pos.map (fun x => ("BYSETPOS=".data) ++ vecToStr x)).toList =
      pSeg ("BYSETPOS".data) (r.by_set_pos.map vecToStr) := by
  cases r.by_set_pos <;> rfl

theorem month_part_toList (r : RecurrenceRule) :
    (r.by_month.map (fun x =>
      ("BYMONTH=".data) ++ joinSep [','] (x.map (fun m => natToChars m.numberFromMonth)))).toList =
      pSeg ("BYMONTH".data) (byMonthValOpt r) := by
  unfold byMonthValOpt
  cases r.by_month <;> rfl

theorem day_part_toList (r : RecurrenceRule) :
    (r.by_day.map (fun x => ("BYDAY=".data) ++ joinSep [','] (x.map weekdayCode))).toList =
      pSeg ("BYDAY".data) (byDayValOpt r) := by
  unfold byDayValOpt
  cases r.by_day <;> rfl

theorem limit_part_toList (r : RecurrenceRule) :
    (match r.limit with
     | .indefinite => none
     | .date date => some (("UNTIL=".data) ++ dateYMD date)
     | .count count => some (("COUNT=".data) ++ natToChars count)).toList =
      pSeg ("UNTIL".data) (untilValOpt r) ++ pSeg ("COUNT".data) (countValOpt r) := by
  unfold untilValOpt countValOpt
  cases r.limit <;> rfl

theorem displayRule_partsOf (r : RecurrenceRule) :
    displayRule r = joinSep [';'] (partsOf r) := by
  unfold displayRule partsOf
  dsimp only
  rw [filterMap_id_cons, filterMap_id_cons, filterMap_id_cons, filterMap_id_cons,
    filterMap_id_cons, filterMap_id_cons, filterMap_id_cons, filterMap_id_cons,
    filterMap_id_cons, List.filterMap_nil]
  rw [interval_part_toList, yd_part_toList, wn_part_toList, md_part_toList,
    sp_part_toList, month_part_toList, day_part_toList, limit_part_toList]
  simp [List.append_assoc]
  rfl

theorem semi_not_mem_part {key value : Str} (hk : ';' ∉ key)
    (hv : ∀ c ∈ value, c ≠ ';') : ';' ∉ (key ++ '=' :: value) := by
  intro h
  rcases List.mem_append.mp h with h1 | h1
  · exact hk h1
  · rcases List.mem_cons.mp h1 with h2 | h2
    · exact absurd h2 (by decide)
    · exact hv ';' h2 rfl

theorem semi_not_mem_pSeg {key : Str} {vo : Option Str} (hk : ';' ∉ key)
    (hv : ∀ vv, vo = some vv → ∀ c ∈ vv, c ≠ ';') :
    ∀ p ∈ pSeg key vo, ';' ∉ p := by
  cases vo with
  | none => intro p hp; simp [pSeg] at hp
  | some vv =>
    intro p hp
    simp only [pSeg, List.mem_singleton] at hp
    subst hp
    exact semi_not_mem_part hk (hv vv rfl)

theorem goodVal_freq (r : RecurrenceRule) :
    ∀ vv, (some (freqStr r.frequency) : Option Str) = some vv →
      ∀ c ∈ vv, c ≠ ';' ∧ c ≠ '=' := by
  intro vv hvv c hc
  cases hvv
  exact valueChar_of_freqStr r.frequency c hc

theorem goodVal_interval (r : RecurrenceRule) :
    ∀ vv, intervalValOpt r = some vv → ∀ c ∈ vv, c ≠ ';' ∧ c ≠ '=' := by
  intro vv hvv c hc
  unfold intervalValOpt at hvv
  split_ifs at hvv
  cases hvv
  exact ⟨(valueChar_of_intToChars hc).1, (valueChar_of_intToChars hc).2.1⟩

theorem goodVal_vec {o : Option (List Int)} :
    ∀ vv, o.map vecToStr = some vv → ∀ c ∈ vv, c ≠ ';' ∧ c ≠ '=' := by
  intro vv hvv c hc
  cases o with
  | none => cases hvv
  | some xs =>
    cases hvv
    exact valueChar_of_vecToStr hc

theorem goodVal_byDay (r : RecurrenceRule) :
    ∀ vv, byDayValOpt r = some vv → ∀ c ∈ vv, c ≠ ';' ∧ c ≠ '=' := by
  intro vv hvv c hc
  unfold byDayValOpt at hvv
  cases hd : r.by_day <;> rw [hd] at hvv
  · cases hvv
  · cases hvv
    exact valueChar_of_byDayVal hc

theorem goodVal_byMonth (r : RecurrenceRule) :
    ∀ vv, byMonthValOpt r = some vv → ∀ c ∈ vv, c ≠ ';' ∧ c ≠ '=' := by
  intro vv hvv c hc
  unfold byMonthValOpt at hvv
  cases hm : r.by_month <;> rw [hm] at hvv
  · cases hvv
  · cases hvv
    exact valueChar_of_byMonthVal hc

theorem goodVal_until (r : RecurrenceRule) :
    ∀ vv, untilValOpt r = some vv → ∀ c ∈ vv, c ≠ ';' ∧ c ≠ '=' := by
  intro vv hvv c hc
  unfold untilValOpt at hvv
  cases hl : r.limit <;> rw [hl] at hvv
  · cases hvv
  · cases hvv
    exact valueChar_of_dateYMD hc
  · cases hvv

theorem goodVal_count (r : RecurrenceRule) :
    ∀ vv, countValOpt r = some vv → ∀ c ∈ vv, c ≠ ';' ∧ c ≠ '=' := by
  intro vv hvv c hc
  unfold countValOpt at hvv
  cases hl : r.limit <;> rw [hl] at hvv
  · cases hvv
  · cases hvv
  · cases hvv
    exact ⟨(valueChar_of_natToChars hc).1, (valueChar_of_natToChars hc).2.1⟩

theorem no_semi_partsOf (r : RecurrenceRule) : ∀ p ∈ partsOf r, ';' ∉ p := by
  intro p hp
  unfold partsOf at hp
  simp only [List.mem_append] at hp
  rcases hp with ((((((((hp | hp) | hp) | hp) | hp) | hp) | hp) | hp) | hp | hp)
  · exact semi_not_mem_pSeg (by decide) (fun vv hvv c hc => (goodVal_freq r vv hvv c hc).1) p hp
  · exact semi_not_mem_pSeg (by decide) (fun vv hvv c hc => (goodVal_interval r vv hvv c hc).1) p hp
  · exact semi_not_mem_pSeg (by decide) (fun vv hvv c hc => (goodVal_vec vv hvv c hc).1) p hp
  · exact semi_not_mem_pSeg (by decide) (fun vv hvv c hc => (goodVal_byDay r vv hvv c hc).1) p hp
  · exact semi_not_mem_pSeg (by decide) (fun vv hvv c hc => (goodVal_vec vv hvv c hc).1) p hp
  · exact semi_not_mem_pSeg (by decide) (fun vv hvv c hc => (goodVal_vec vv hvv c hc).1) p hp
  · exact semi_not_mem_pSeg (by decide) (fun vv hvv c hc => (goodVal_vec vv hvv c hc).1) p hp
  · exact semi_not_mem_pSeg (by decide) (fun vv hvv c hc => (goodVal_byMonth r vv hvv c hc).1) p hp
  · exact semi_not_mem_pSeg (by decide) (fun vv hvv c hc => (goodVal_until r vv hvv c hc).1) p hp
  · exact semi_not_mem_pSeg (by decide) (fun vv hvv c hc => (goodVal_count r vv hvv c hc).1) p hp

theorem partsOf_ne_nil (r : RecurrenceRule) : partsOf r ≠ [] := by
  unfold partsOf pSeg
  simp

theorem mapM_append_ok {ε α β : Type} {f : α → Except ε β} {xs ys : List α}
    {as bs : List β} (hx : xs.mapM f = Except.ok as) (hy : ys.mapM f = Except.ok bs) :
    (xs ++ ys).mapM f = Except.ok (as ++ bs) := by
  rw [List.mapM_append, hx]
  rw [show ((Except.ok as >>= fun as2 => ys.mapM f >>= fun bs2 =>
    pure (as2 ++ bs2)) = (ys.mapM f >>= fun bs2 => pure (as ++ bs2))) from rfl, hy]
  rfl

theorem mapM_splitEq_pSeg {key : Str} {vo : Option Str} (hk : '=' ∉ key)
    (hv : ∀ vv, vo = some vv → ∀ c ∈ vv, c ≠ '=') :
    (pSeg key vo).mapM (fun p =>
      match splitOnChar '=' p with
      | [k, v] => Except.ok (k, v)
      | _ => Except.error (RRuleParseError.badValue p)) = Except.ok (segOf key vo) := by
  cases vo with
  | none => rfl
  | some vv =>
    show ([key ++ '=' :: vv].mapM _) = Except.ok [(key, vv)]
    rw [List.mapM_cons]
    have hsplit : splitOnChar '=' (key ++ '=' :: vv) = [key, vv] := by
      rw [splitOnChar_append vv hk, splitOnChar_no_sep (fun hmem => hv vv rfl '=' hmem rfl)]
    simp only [hsplit]
    rfl

theorem all_known_segOf {key : Str} (vo : Option Str)
    (h : knownKeys.contains key = true) :
    (segOf key vo).all (fun kv => knownKeys.contains kv.1) = true := by
  cases vo with
  | none => rfl
  | some v =>
    simp only [segOf, List.all_cons, List.all_nil, Bool.and_true]
    exact h

theorem mapM_splitEq_partsOf (r : RecurrenceRule) :
    (partsOf r).mapM (fun p =>
      match splitOnChar '=' p with
      | [k, v] => Except.ok (k, v)
      | _ => Except.error (RRuleParseError.badValue p)) = Except.ok (kvsOf r) := by
  unfold partsOf kvsOf
  refine mapM_append_ok (mapM_append_ok (mapM_append_ok (mapM_append_ok (mapM_append_ok
    (mapM_append_ok (mapM_append_ok (mapM_append_ok
      (mapM_splitEq_pSeg (by decide) (fun vv hvv c hc => (goodVal_freq r vv hvv c hc).2))
      (mapM_splitEq_pSeg (by decide) (fun vv hvv c hc => (goodVal_interval r vv hvv c hc).2)))
      (mapM_splitEq_pSeg (by decide) (fun vv hvv c hc => (goodVal_vec vv hvv c hc).2)))
      (mapM_splitEq_pSeg (by decide) (fun vv hvv c hc => (goodVal_byDay r vv hvv c hc).2)))
      (mapM_splitEq_pSeg (by decide) (fun vv hvv c hc => (goodVal_vec vv hvv c hc).2)))
      (mapM_splitEq_pSeg (by decide) (fun vv hvv c hc => (goodVal_vec vv hvv c hc).2)))
      (mapM_splitEq_pSeg (by decide) (fun vv hvv c hc => (goodVal_vec vv hvv c hc).2)))
      (mapM_splitEq_pSeg (by decide) (fun vv hvv c hc => (goodVal_byMonth r vv hvv c hc).2)))
    (mapM_append_ok
      (mapM_splitEq_pSeg (by decide) (fun vv hvv c hc => (goodVal_until r vv hvv c hc).2))
      (mapM_splitEq_pSeg (by decide) (fun vv hvv c hc => (goodVal_count r vv hvv c hc).2)))

theorem all_known_kvsOf (r : RecurrenceRule) :
    (kvsOf r).all (fun kv => knownKeys.contains kv.1) = true := by
  unfold kvsOf
  simp only [List.all_append, Bool.and_eq_true]
  exact ⟨⟨⟨⟨⟨⟨⟨⟨all_known_segOf _ (by decide), all_known_segOf _ (by decide)⟩,
    all_known_segOf _ (by decide)⟩, all_known_segOf _ (by decide)⟩,
    all_known_segOf _ (by decide)⟩, all_known_segOf _ (by decide)⟩,
    all_known_segOf _ (by decide)⟩, all_known_segOf _ (by decide)⟩,
    all_known_segOf _ (by decide), all_known_segOf _ (by decide)⟩

theorem tokenize_displayRule (r : RecurrenceRule) :
    tokenize (displayRule r) = .ok (kvsOf r) := by
  rw [displayRule_partsOf]
  unfold tokenize
  rw [splitOnChar_joinSep (partsOf r) (partsOf_ne_nil r) (no_semi_partsOf r)]
  dsimp only
  rw [mapM_splitEq_partsOf r, exc_bind_ok]
  rw [if_neg (by rw [all_known_kvsOf r]; exact not_not_intro rfl)]
  rfl

/-! ## `getOne` over the printed pairs -/

theorem getOne_kvsOf_freq (r : RecurrenceRule) :
    getOne (kvsOf r) ("FREQ".data) = .ok (some (freqStr r.frequency)) := by
  apply getOne_single
  simp only [kvsOf, List.filter_append, filter_segOf_self,
    filter_segOf_other (show ("INTERVAL".data : Str) ≠ ("FREQ".data) from by decide),
    filter_segOf_other (show ("BYYEARDAY".data : Str) ≠ ("FREQ".data) from by decide),
    filter_segOf_other (show ("BYDAY".data : Str) ≠ ("FREQ".data) from by decide),
    filter_segOf_other (show ("BYWEEKNO".data : Str) ≠ ("FREQ".data) from by decide),
    filter_segOf_other (show ("BYMONTHDAY".data : Str) ≠ ("FREQ".data) from by decide),
    filter_segOf_other (show ("BYSETPOS".data : Str) ≠ ("FREQ".data) from by decide),
    filter_segOf_other (show ("BYMONTH".data : Str) ≠ ("FREQ".data) from by decide),
    filter_segOf_other (show ("UNTIL".data : Str) ≠ ("FREQ".data) from by decide),
    filter_segOf_other (show ("COUNT".data : Str) ≠ ("FREQ".data) from by decide)]
  simp

theorem getOne_kvsOf_interval (r : RecurrenceRule) :
    getOne (kvsOf r) ("INTERVAL".data) = .ok (intervalValOpt r) := by
  apply getOne_single
  simp only [kvsOf, List.filter_append, filter_segOf_self,
    filter_segOf_other (show ("FREQ".data : Str) ≠ ("INTERVAL".data) from by decide),
    filter_segOf_other (show ("BYYEARDAY".data : Str) ≠ ("INTERVAL".data) from by decide),
    filter_segOf_other (show ("BYDAY".data : Str) ≠ ("INTERVAL".data) from by decide),
    filter_segOf_other (show ("BYWEEKNO".data : Str) ≠ ("INTERVAL".data) from by decide),
    filter_segOf_other (show ("BYMONTHDAY".data : Str) ≠ ("INTERVAL".data) from by decide),
    filter_segOf_other (show ("BYSETPOS".data : Str) ≠ ("INTERVAL".data) from by decide),
    filter_segOf_other (show ("BYMONTH".data : Str) ≠ ("INTERVAL".data) from by decide),
    filter_segOf_other (show ("UNTIL".data : Str) ≠ ("INTERVAL".data) from by decide),
    filter_segOf_other (show ("COUNT".data : Str) ≠ ("INTERVAL".data) from by decide)]
  simp

theorem getOne_kvsOf_yearday (r : RecurrenceRule) :
    getOne (kvsOf r) ("BYYEARDAY".data) = .ok (r.by_year_day.map vecToStr) := by
  apply getOne_single
  simp only [kvsOf, List.filter_append, filter_segOf_self,
    filter_segOf_other (show ("FREQ".data : Str) ≠ ("BYYEARDAY".data) from by decide),
    filter_segOf_other (show ("INTERVAL".data : Str) ≠ ("BYYEARDAY".data) from by decide),
    filter_segOf_other (show ("BYDAY".data : Str) ≠ ("BYYEARDAY".data) from by decide),
    filter_segOf_other (show ("BYWEEKNO".data : Str) ≠ ("BYYEARDAY".data) from by decide),
    filter_segOf_other (show ("BYMONTHDAY".data : Str) ≠ ("BYYEARDAY".data) from by decide),
    filter_segOf_other (show ("BYSETPOS".data : Str) ≠ ("BYYEARDAY".data) from by decide),
    filter_segOf_other (show ("BYMONTH".data : Str) ≠ ("BYYEARDAY".data) from by decide),
    filter_segOf_other (show ("UNTIL".data : Str) ≠ ("BYYEARDAY".data) from by decide),
    filter_segOf_other (show ("COUNT".data : Str) ≠ ("BYYEARDAY".data) from by decide)]
  simp

theorem getOne_kvsOf_byday (r : RecurrenceRule) :
    getOne (kvsOf r) ("BYDAY".data) = .ok (byDayValOpt r) := by
  apply getOne_single
  simp only [kvsOf, List.filter_append, filter_segOf_self,
    filter_segOf_other (show ("FREQ".data : Str) ≠ ("BYDAY".data) from by decide),
    filter_segOf_other (show ("INTERVAL".data : Str) ≠ ("BYDAY".data) from by decide),
    filter_segOf_other (show ("BYYEARDAY".data : Str) ≠ ("BYDAY".data) from by decide),
    filter_segOf_other (show ("BYWEEKNO".data : Str) ≠ ("BYDAY".data) from by decide),
    filter_segOf_other (show ("BYMONTHDAY".data : Str) ≠ ("BYDAY".data) from by decide),
    filter_segOf_other (show ("BYSETPOS".data : Str) ≠ ("BYDAY".data) from by decide),
    filter_segOf_other (show ("BYMONTH".data : Str) ≠ ("BYDAY".data) from by decide),
    filter_segOf_other (show ("UNTIL".data : Str) ≠ ("BYDAY".data) from by decide),
    filter_segOf_other (show ("COUNT".data : Str) ≠ ("BYDAY".data) from by decide)]
  simp

theorem getOne_kvsOf_weekno (r : RecurrenceRule) :
    getOne (kvsOf r) ("BYWEEKNO".data) = .ok (r.by_week_no.map vecToStr) := by
  apply getOne_single
  simp only [kvsOf, List.filter_append, filter_segOf_self,
    filter_segOf_other (show ("FREQ".data : Str) ≠ ("BYWEEKNO".data) from by decide),
    filter_segOf_other (show ("INTERVAL".data : Str) ≠ ("BYWEEKNO".data) from by decide),
    filter_segOf_other (show ("BYYEARDAY".data : Str) ≠ ("BYWEEKNO".data) from by decide),
    filter_segOf_other (show ("BYDAY".data : Str) ≠ ("BYWEEKNO".data) from by decide),
    filter_segOf_other (show ("BYMONTHDAY".data : Str) ≠ ("BYWEEKNO".data) from by decide),
    filter_segOf_other (show ("BYSETPOS".data : Str) ≠ ("BYWEEKNO".data) from by decide),
    filter_segOf_other (show ("BYMONTH".data : Str) ≠ ("BYWEEKNO".data) from by decide),
    filter_segOf_other (show ("UNTIL".data : Str) ≠ ("BYWEEKNO".data) from by decide),
    filter_segOf_other (show ("COUNT".data : Str) ≠ ("BYWEEKNO".data) from by decide)]
  simp

theorem getOne_kvsOf_monthday (r : RecurrenceRule) :
    getOne (kvsOf r) ("BYMONTHDAY".data) = .ok (r.by_month_day.map vecToStr) := by
  apply getOne_single
  simp only [kvsOf, List.filter_append, filter_segOf_self,
    filter_segOf_other (show ("FREQ".data : Str) ≠ ("BYMONTHDAY".data) from by decide),
    filter_segOf_other (show ("INTERVAL".data : Str) ≠ ("BYMONTHDAY".data) from by decide),
    filter_segOf_other (show ("BYYEARDAY".data : Str) ≠ ("BYMONTHDAY".data) from by decide),
    filter_segOf_other (show ("BYDAY".data : Str) ≠ ("BYMONTHDAY".data) from by decide),
    filter_segOf_other (show ("BYWEEKNO".data : Str) ≠ ("BYMONTHDAY".data) from by decide),
    filter_segOf_other (show ("BYSETPOS".data : Str) ≠ ("BYMONTHDAY".data) from by decide),
    filter_segOf_other (show ("BYMONTH".data : Str) ≠ ("BYMONTHDAY".data) from by decide),
    filter_segOf_other (show ("UNTIL".data : Str) ≠ ("BYMONTHDAY".data) from by decide),
    filter_segOf_other (show ("COUNT".data : Str) ≠ ("BYMONTHDAY".data) from by decide)]
  simp

theorem getOne_kvsOf_setpos (r : RecurrenceRule) :
    getOne (kvsOf r) ("BYSETPOS".data) = .ok (r.by_set_pos.map vecToStr) := by
  apply getOne_single
  simp only [kvsOf, List.filter_append, filter_segOf_self,
    filter_segOf_other (show ("FREQ".data : Str) ≠ ("BYSETPOS".data) from by decide),
    filter_segOf_other (show ("INTERVAL".data : Str) ≠ ("BYSETPOS".data) from by decide),
    filter_segOf_other (show ("BYYEARDAY".data : Str) ≠ ("BYSETPOS".data) from by decide),
    filter_segOf_other (show ("BYDAY".data : Str) ≠ ("BYSETPOS".data) from by decide),
    filter_segOf_other (show ("BYWEEKNO".data : Str) ≠ ("BYSETPOS".data) from by decide),
    filter_segOf_other (show ("BYMONTHDAY".data : Str) ≠ ("BYSETPOS".data) from by decide),
    filter_segOf_other (show ("BYMONTH".data : Str) ≠ ("BYSETPOS".data) from by decide),
    filter_segOf_other (show ("UNTIL".data : Str) ≠ ("BYSETPOS".data) from by decide),
    filter_segOf_other (show ("COUNT".data : Str) ≠ ("BYSETPOS".data) from by decide)]
  simp

theorem getOne_kvsOf_bymonth (r : RecurrenceRule) :
    getOne (kvsOf r) ("BYMONTH".data) = .ok (byMonthValOpt r) := by
  apply getOne_single
  simp only [kvsOf, List.filter_append, filter_segOf_self,
    filter_segOf_other (show ("FREQ".data : Str) ≠ ("BYMONTH".data) from by decide),
    filter_segOf_other (show ("INTERVAL".data : Str) ≠ ("BYMONTH".data) from by decide),
    filter_segOf_other (show ("BYYEARDAY".data : Str) ≠ ("BYMONTH".data) from by decide),
    filter_segOf_other (show ("BYDAY".data : Str) ≠ ("BYMONTH".data) from by decide),
    filter_segOf_other (show ("BYWEEKNO".data : Str) ≠ ("BYMONTH".data) from by decide),
    filter_segOf_other (show ("BYMONTHDAY".data : Str) ≠ ("BYMONTH".data) from by decide),
    filter_segOf_other (show ("BYSETPOS".data : Str) ≠ ("BYMONTH".data) from by decide),
    filter_segOf_other (show ("UNTIL".data : Str) ≠ ("BYMONTH".data) from by decide),
    filter_segOf_other (show ("COUNT".data : Str) ≠ ("BYMONTH".data) from by decide)]
  simp

theorem getOne_kvsOf_until (r : RecurrenceRule) :
    getOne (kvsOf r) ("UNTIL".data) = .ok (untilValOpt r) := by
  apply getOne_single
  simp only [kvsOf, List.filter_append, filter_segOf_self,
    filter_segOf_other (show ("FREQ".data : Str) ≠ ("UNTIL".data) from by decide),
    filter_segOf_other (show ("INTERVAL".data : Str) ≠ ("UNTIL".data) from by decide),
    filter_segOf_other (show ("BYYEARDAY".data : Str) ≠ ("UNTIL".data) from by decide),
    filter_segOf_other (show ("BYDAY".data : Str) ≠ ("UNTIL".data) from by decide),
    filter_segOf_other (show ("BYWEEKNO".data : Str) ≠ ("UNTIL".data) from by decide),
    filter_segOf_other (show ("BYMONTHDAY".data : Str) ≠ ("UNTIL".data) from by decide),
    filter_segOf_other (show ("BYSETPOS".data : Str) ≠ ("UNTIL".data) from by decide),
    filter_segOf_other (show ("BYMONTH".data : Str) ≠ ("UNTIL".data) from by decide),
    filter_segOf_other (show ("COUNT".data : Str) ≠ ("UNTIL".data) from by decide)]
  simp

theorem getOne_kvsOf_count (r : RecurrenceRule) :
    getOne (kvsOf r) ("COUNT".data) = .ok (countValOpt r) := by
  apply getOne_single
  simp only [kvsOf, List.filter_append, filter_segOf_self,
    filter_segOf_other (show ("FREQ".data : Str) ≠ ("COUNT".data) from by decide),
    filter_segOf_other (show ("INTERVAL".data : Str) ≠ ("COUNT".data) from by decide),
    filter_segOf_other (show ("BYYEARDAY".data : Str) ≠ ("COUNT".data) from by decide),
    filter_segOf_other (show ("BYDAY".data : Str) ≠ ("COUNT".data) from by decide),
    filter_segOf_other (show ("BYWEEKNO".data : Str) ≠ ("COUNT".data) from by decide),
    filter_segOf_other (show ("BYMONTHDAY".data : Str) ≠ ("COUNT".data) from by decide),
    filter_segOf_other (show ("BYSETPOS".data : Str) ≠ ("COUNT".data) from by decide),
    filter_segOf_other (show ("BYMONTH".data : Str) ≠ ("COUNT".data) from by decide),
    filter_segOf_other (show ("UNTIL".data : Str) ≠ ("COUNT".data) from by decide)]
  simp

/-! ## Field parsers applied to the printed pairs -/

theorem parseFreqField_kvsOf (r : RecurrenceRule) :
    parseFreqField (kvsOf r) = .ok r.frequency := by
  unfold parseFreqField
  rw [getOne_kvsOf_freq, exc_bind_ok]
  dsimp only
  rw [parseFreqV_freqStr]

theorem parseIntervalField_kvsOf (r : RecurrenceRule) (h1 : 1 ≤ r.interval) :
    parseIntervalField (kvsOf r) = .ok r.interval := by
  unfold parseIntervalField
  rw [getOne_kvsOf_interval, exc_bind_ok]
  by_cases hgt : r.interval > 1
  · rw [show intervalValOpt r = some (intToChars r.interval) from by
      unfold intervalValOpt; rw [if_pos hgt]]
    dsimp only
    rw [intToChars_head_digit _ (by omega), parseNatChars_natToChars]
    dsimp only
    rw [if_pos (show 1 ≤ r.interval.toNat by omega)]
    simp [Int.toNat_of_nonneg (show (0 : Int) ≤ r.interval by omega)]
    rfl
  · rw [show intervalValOpt r = none from by unfold intervalValOpt; rw [if_neg hgt]]
    dsimp only
    rw [show r.interval = 1 from by omega]
    rfl

theorem parseLimitField_kvsOf (r : RecurrenceRule) (h2 : WFLimit r.limit) :
    parseLimitField (kvsOf r) = .ok r.limit := by
  unfold parseLimitField
  rw [getOne_kvsOf_count, exc_bind_ok, getOne_kvsOf_until, exc_bind_ok]
  unfold countValOpt untilValOpt
  cases hl : r.limit with
  | indefinite => rfl
  | count c =>
    rw [hl] at h2
    dsimp only
    rw [parseNatChars_natToChars]
    dsimp only
    rw [if_pos (show 1 ≤ c from h2)]
    rfl
  | date d =>
    rw [hl] at h2
    obtain ⟨ha, hb, hc2, hd2, he, hf⟩ :=
      (h2 : 0 ≤ d.year ∧ d.year ≤ 9999 ∧ 1 ≤ d.month ∧ d.month ≤ 12 ∧
        1 ≤ d.day ∧ d.day ≤ daysInMonth d.year d.month)
    dsimp only
    rw [parseUntilV_dateYMD ha hb hc2 hd2 he hf]
    rfl

theorem parseByMonthField_kvsOf (r : RecurrenceRule)
    (hne : ∀ l, r.by_month = some l → l ≠ []) :
    parseOptListField ("BYMONTH".data) parseMonthListV (kvsOf r) = .ok r.by_month := by
  unfold parseOptListField
  rw [getOne_kvsOf_bymonth, exc_bind_ok]
  unfold byMonthValOpt
  cases hm : r.by_month with
  | none => rfl
  | some l =>
    simp only [Option.map_some']
    rw [parseMonthListV_print (hne l hm)]
    rfl

theorem parseByWeekNoField_kvsOf (r : RecurrenceRule)
    (h : ∀ l, r.by_week_no = some l → l ≠ [] ∧ ∀ x ∈ l, x ≠ 0 ∧ -53 ≤ x ∧ x ≤ 53) :
    parseOptListField ("BYWEEKNO".data) (parseIntListV ("BYWEEKNO".data) (some 53))
      (kvsOf r) = .ok r.by_week_no := by
  unfold parseOptListField
  rw [getOne_kvsOf_weekno, exc_bind_ok]
  cases hm : r.by_week_no with
  | none => rfl
  | some l =>
    simp only [Option.map_some']
    rw [parseIntListV_print _ _ (h l hm).1
      (fun x hx => ⟨((h l hm).2 x hx).1, show -53 ≤ x ∧ x ≤ 53 from
        ⟨((h l hm).2 x hx).2.1, ((h l hm).2 x hx).2.2⟩⟩)]
    rfl

theorem parseByYearDayField_kvsOf (r : RecurrenceRule)
    (h : ∀ l, r.by_year_day = some l → l ≠ [] ∧ ∀ x ∈ l, x ≠ 0 ∧ -366 ≤ x ∧ x ≤ 366) :
    parseOptListField ("BYYEARDAY".data) (parseIntListV ("BYYEARDAY".data) (some 366))
      (kvsOf r) = .ok r.by_year_day := by
  unfold parseOptListField
  rw [getOne_kvsOf_yearday, exc_bind_ok]
  cases hm : r.by_year_day with
  | none => rfl
  | some l =>
    simp only [Option.map_some']
    rw [parseIntListV_print _ _ (h l hm).1
      (fun x hx => ⟨((h l hm).2 x hx).1, show -366 ≤ x ∧ x ≤ 366 from
        ⟨((h l hm).2 x hx).2.1, ((h l hm).2 x hx).2.2⟩⟩)]
    rfl

theorem parseByMonthDayField_kvsOf (r : RecurrenceRule)
    (h : ∀ l, r.by_month_day = some l → l ≠ [] ∧ ∀ x ∈ l, x ≠ 0 ∧ -31 ≤ x ∧ x ≤ 31) :
    parseOptListField ("BYMONTHDAY".data) (parseIntListV ("BYMONTHDAY".data) (some 31))
      (kvsOf r) = .ok r.by_month_day := by
  unfold parseOptListField
  rw [getOne_kvsOf_monthday, exc_bind_ok]
  cases hm : r.by_month_day with
  | none => rfl
  | some l =>
    simp only [Option.map_some']
    rw [parseIntListV_print _ _ (h l hm).1
      (fun x hx => ⟨((h l hm).2 x hx).1, show -31 ≤ x ∧ x ≤ 31 from
        ⟨((h l hm).2 x hx).2.1, ((h l hm).2 x hx).2.2⟩⟩)]
    rfl

theorem parseByDayField_kvsOf (r : RecurrenceRule)
    (hne : ∀ l, r.by_day = some l → l ≠ []) :
    parseOptListField ("BYDAY".data) parseWeekdayListV (kvsOf r) = .ok r.by_day := by
  unfold parseOptListField
  rw [getOne_kvsOf_byday, exc_bind_ok]
  unfold byDayValOpt
  cases hm : r.by_day with
  | none => rfl
  | some l =>
    simp only [Option.map_some']
    rw [parseWeekdayListV_print (hne l hm)]
    rfl

theorem parseBySetPosField_kvsOf (r : RecurrenceRule)
    (h : ∀ l, r.by_set_pos = some l → l ≠ [] ∧ ∀ x ∈ l, x ≠ 0) :
    parseOptListField ("BYSETPOS".data) (parseIntListV ("BYSETPOS".data) none)
      (kvsOf r) = .ok r.by_set_pos := by
  unfold parseOptListField
  rw [getOne_kvsOf_setpos, exc_bind_ok]
  cases hm : r.by_set_pos with
  | none => rfl
  | some l =>
    simp only [Option.map_some']
    rw [parseIntListV_print _ _ (h l hm).1
      (fun x hx => ⟨(h l hm).2 x hx, show True from trivial⟩)]
    rfl

/-! ## The printed rule re-parses to itself -/

theorem parse_printed (r : RecurrenceRule) (hwf : WellFormedRule r) :
    parseRRule (displayRule r) = .ok r := by
  obtain ⟨h1, h2, h3, h4, h5, h6, h7, h8⟩ := hwf
  unfold parseRRule
  rw [tokenize_displayRule, exc_bind_ok, parseFreqField_kvsOf, exc_bind_ok,
    parseIntervalField_kvsOf r h1, exc_bind_ok, parseLimitField_kvsOf r h2, exc_bind_ok,
    parseByMonthField_kvsOf r h3, exc_bind_ok, parseByWeekNoField_kvsOf r h4, exc_bind_ok,
    parseByYearDayField_kvsOf r h5, exc_bind_ok, parseByMonthDayField_kvsOf r h6,
    exc_bind_ok, parseByDayField_kvsOf r h7, exc_bind_ok, parseBySetPosField_kvsOf r h8,
    exc_bind_ok]
  rfl

/-! ## Every parsed rule is well-formed -/

theorem exc_pure_ok_inv {ε α : Type} {a b : α}
    (h : (pure a : Except ε α) = Except.ok b) : a = b :=
  Except.ok.inj h

theorem exc_throw_ne_ok {ε α : Type} (e : ε) (a : α) :
    (throw e : Except ε α) ≠ Except.ok a := fun h => Except.noConfusion h

theorem parseIntervalField_pos {kvs : List (Str × Str)} {i : Int}
    (h : parseIntervalField kvs = .ok i) : 1 ≤ i := by
  unfold parseIntervalField at h
  obtain ⟨o, _, h2⟩ := exc_bind_ok_inv h
  cases o with
  | none =>
    have h3 : (1 : Int) = i := exc_pure_ok_inv h2
    omega
  | some v =>
    dsimp only at h2
    cases hp : parseNatChars v with
    | none =>
      rw [hp] at h2
      exact absurd h2 (exc_throw_ne_ok _ _)
    | some n =>
      rw [hp] at h2
      dsimp only at h2
      split_ifs at h2 with h1n
      have h3 : ((n : Int)) = i := exc_pure_ok_inv h2
      omega

theorem parseUntilV_wf {v : Str} {d : Date} (h : parseUntilV v = .ok d) :
    0 ≤ d.year ∧ d.year ≤ 9999 ∧ 1 ≤ d.month ∧ d.month ≤ 12 ∧
      1 ≤ d.day ∧ d.day ≤ daysInMonth d.year d.month := by
  unfold parseUntilV at h
  split_ifs at h with hc
  · cases hy : parseNatChars (v.take 4) with
    | none => rw [hy] at h; simp at h
    | some y =>
    cases hm : parseNatChars ((v.drop 4).take 2) with
    | none => rw [hy, hm] at h; simp at h
    | some m =>
    cases hd : parseNatChars (v.drop 6) with
    | none => rw [hy, hm, hd] at h; simp at h
    | some dd =>
      rw [hy, hm, hd] at h
      dsimp only at h
      split_ifs at h with hr
      simp only [Except.ok.injEq] at h
      subst h
      have hy4 : y < 10 ^ (v.take 4).length := parseNatChars_lt hy
      have hlen : (v.take 4).length = 4 := by
        rw [List.length_take]
        omega
      rw [hlen, show (10 : Nat) ^ 4 = 10000 from rfl] at hy4
      dsimp only
      refine ⟨by omega, by omega, hr.1, hr.2.1, hr.2.2.1, hr.2.2.2⟩

theorem parseLimitField_wf {kvs : List (Str × Str)} {lim : RecurrenceLimit}
    (h : parseLimitField kvs = .ok lim) : WFLimit lim := by
  unfold parseLimitField at h
  obtain ⟨co, _, h2⟩ := exc_bind_ok_inv h
  obtain ⟨uo, _, h3⟩ := exc_bind_ok_inv h2
  cases co with
  | none =>
    cases uo with
    | none =>
      have h4 : RecurrenceLimit.indefinite = lim := exc_pure_ok_inv h3
      subst h4
      trivial
    | some v =>
      dsimp only at h3
      obtain ⟨d, hd, hmap⟩ := exc_map_ok_inv h3
      subst hmap
      exact parseUntilV_wf hd
  | some v =>
    cases uo with
    | none =>
      dsimp only at h3
      cases hp : parseNatChars v with
      | none =>
        rw [hp] at h3
        exact absurd h3 (exc_throw_ne_ok _ _)
      | some n =>
        rw [hp] at h3
        dsimp only at h3
        split_ifs at h3 with h1n
        have h4 : RecurrenceLimit.count n = lim := exc_pure_ok_inv h3
        subst h4
        exact h1n
    | some v2 => exact absurd h3 (exc_throw_ne_ok _ _)

theorem parseIntListV_wf {key : Str} {bound : Option Int} {v : Str} {l : List Int}
    (h : parseIntListV key bound v = .ok l) :
    l ≠ [] ∧ ∀ x ∈ l, x ≠ 0 ∧ boundedBy bound x := by
  unfold parseIntListV at h
  constructor
  · intro hl
    subst hl
    have hlen := mapM_ok_length h
    have := splitOnChar_ne_nil ',' v
    simp only [List.length_nil] at hlen
    exact this (List.length_eq_zero.mp hlen.symm)
  · intro x hx
    obtain ⟨piece, _, hpiece⟩ := mapM_ok_mem h x hx
    cases hpi : parseIntChars piece with
    | none => rw [hpi] at hpiece; simp at hpiece
    | some x2 =>
      rw [hpi] at hpiece
      dsimp only at hpiece
      split_ifs at hpiece with hx0
      cases bound with
        | none =>
          simp only [Except.ok.injEq] at hpiece
          subst hpiece
          exact ⟨hx0, trivial⟩
        | some b =>
          dsimp only at hpiece
          split_ifs at hpiece with hrange
          simp only [Except.ok.injEq] at hpiece
          subst hpiece
          exact ⟨hx0, hrange⟩

theorem parseMonthListV_ne {v : Str} {l : List Month}
    (h : parseMonthListV v = .ok l) : l ≠ [] := by
  unfold parseMonthListV at h
  intro hl
  subst hl
  have hlen := mapM_ok_length h
  have := splitOnChar_ne_nil ',' v
  simp only [List.length_nil] at hlen
  exact this (List.length_eq_zero.mp hlen.symm)

theorem parseWeekdayListV_ne {v : Str} {l : List Weekday}
    (h : parseWeekdayListV v = .ok l) : l ≠ [] := by
  unfold parseWeekdayListV at h
  intro hl
  subst hl
  have hlen := mapM_ok_length h
  have := splitOnChar_ne_nil ',' v
  simp only [List.length_nil] at hlen
  exact this (List.length_eq_zero.mp hlen.symm)

theorem parseOptListField_wf {α : Type} {key : Str}
    {f : Str → Except RRuleParseError (List α)} {kvs : List (Str × Str)}
    {o : Option (List α)} (h : parseOptListField key f kvs = .ok o)
    (P : List α → Prop) (hf : ∀ v l, f v = .ok l → P l) :
    ∀ l, o = some l → P l := by
  unfold parseOptListField at h
  obtain ⟨vo, _, h2⟩ := exc_bind_ok_inv h
  cases vo with
  | none =>
    have h3 : (none : Option (List α)) = o := exc_pure_ok_inv h2
    subst h3
    intro l hl
    cases hl
  | some v =>
    dsimp only at h2
    obtain ⟨l0, hl0, hmap⟩ := exc_map_ok_inv h2
    subst hmap
    intro l hl
    simp only [Option.some.injEq] at hl
    subst hl
    exact hf v l0 hl0

theorem wellFormed_of_parse {s : Str} {r : RecurrenceRule}
    (h : parseRRule s = .ok r) : WellFormedRule r := by
  unfold parseRRule at h
  obtain ⟨kvs, _, h⟩ := exc_bind_ok_inv h
  obtain ⟨freq, _, h⟩ := exc_bind_ok_inv h
  obtain ⟨interval, hint, h⟩ := exc_bind_ok_inv h
  obtain ⟨limit, hlim, h⟩ := exc_bind_ok_inv h
  obtain ⟨bm, hbm, h⟩ := exc_bind_ok_inv h
  obtain ⟨bw, hbw, h⟩ := exc_bind_ok_inv h
  obtain ⟨byd, hbyd, h⟩ := exc_bind_ok_inv h
  obtain ⟨bmd, hbmd, h⟩ := exc_bind_ok_inv h
  obtain ⟨bd, hbd, h⟩ := exc_bind_ok_inv h
  obtain ⟨bsp, hbsp, h⟩ := exc_bind_ok_inv h
  have hr : Except.ok (α := RecurrenceRule)
      { frequency := freq, interval := interval, limit := limit, by_month := bm,
        by_week_no := bw, by_year_day := byd, by_month_day := bmd, by_day := bd,
        by_set_pos := bsp } = Except.ok r := h
  simp only [Except.ok.injEq] at hr
  subst hr
  refine ⟨parseIntervalField_pos hint, parseLimitField_wf hlim, ?_, ?_, ?_, ?_, ?_, ?_⟩
  · exact parseOptListField_wf hbm _ (fun v l hfl => parseMonthListV_ne hfl)
  · exact parseOptListField_wf hbw _ (fun v l hfl => parseIntListV_wf hfl)
  · exact parseOptListField_wf hbyd _ (fun v l hfl => parseIntListV_wf hfl)
  · exact parseOptListField_wf hbmd _ (fun v l hfl => parseIntListV_wf hfl)
  · exact parseOptListField_wf hbd _ (fun v l hfl => parseWeekdayListV_ne hfl)
  · exact parseOptListField_wf hbsp _ (fun v l hfl =>
      ⟨(parseIntListV_wf hfl).1, fun x hx => ((parseIntListV_wf hfl).2 x hx).1⟩)

/-- C6: round-trip law — for every rule the parser can produce (the image
of `parseRRule`), parsing the canonical printed text yields the same rule
back: `parse(print(r)) = r`. -/
theorem c6_parse_print_round_trip (s : Str) (r : RecurrenceRule)
    (h : parseRRule s = .ok r) : parseRRule (displayRule r) = .ok r :=
  parse_printed r (wellFormed_of_parse h)

/-- C6 witness: scenario S7's string, parsed and re-parsed from its
canonical print. -/
theorem c6_parse_print_round_trip_witness :
    parseRRule c6_input = .ok c6_rule ∧
    parseRRule (displayRule c6_rule) = .ok c6_rule :=
  ⟨by rfl, c6_parse_print_round_trip c6_input c6_rule (by rfl)⟩

end Caser
